import Mathlib

/-!
Verification of the intent-resolution and layer-merge engine of the
aviation-chat scene-document service
(`app/api/chat/route.js`, gptfallback variant — the variant the
specification adopts as canonical).

The JavaScript source is shallowly embedded: pure string manipulation is
modelled over `List Char`/`String`, JSON-like values by the inductive
`JValue` (for the normalizer, which receives arbitrary request bodies)
and by the typed `SceneDoc`/`LayerObj` records (for the merge engine,
which the route always feeds already-normalized documents).  JavaScript
numbers are modelled by `Int` at the normalizer level and by `Rat` for
dimension values; `Date.now()` is an explicit `now : Nat` parameter.
-/

/-! ## Character/string helpers mirroring the JavaScript string operations -/

/-- JavaScript `\s` on the ASCII range: space, tab, CR, LF. -/
def isWsChar (c : Char) : Bool :=
  c = ' ' || c = '\t' || c = '\n' || c = '\r'

/-- ASCII lower-casing of one character, as `String.prototype.toLowerCase`
acts on the ASCII range (code points 65–90 shift up by 32). -/
def lcChar (c : Char) : Char :=
  if 65 ≤ c.toNat ∧ c.toNat ≤ 90 then Char.ofNat (c.toNat + 32) else c

/-- ASCII upper-casing of one character, as `String.prototype.toUpperCase`
acts on the ASCII range (code points 97–122 shift down by 32). -/
def ucChar (c : Char) : Char :=
  if 97 ≤ c.toNat ∧ c.toNat ≤ 122 then Char.ofNat (c.toNat - 32) else c

/-- The regex class `\d` = `[0-9]` (code points 48–57). -/
def isDigitCh (c : Char) : Bool := 48 ≤ c.toNat && c.toNat ≤ 57

/-- `msg.toLowerCase()` (ASCII range). -/
def jsToLower (s : String) : String := ⟨s.data.map lcChar⟩

/-- `msg.toUpperCase()` (ASCII range). -/
def jsToUpper (s : String) : String := ⟨s.data.map ucChar⟩

/-- Prefix test on character lists. -/
def isPrefixL : List Char → List Char → Bool
  | [], _ => true
  | _ :: _, [] => false
  | a :: as, b :: bs => a = b && isPrefixL as bs

/-- Substring (contiguous) test on character lists. -/
def isInfixL (sub : List Char) : List Char → Bool
  | [] => sub.isEmpty
  | c :: cs => isPrefixL sub (c :: cs) || isInfixL sub cs

/-- `s.includes(sub)`: substring containment. -/
def jsIncludes (s sub : String) : Bool := isInfixL sub.data s.data

/-- Decimal digit character for a digit value below ten (values ten and
above never arise: `natDigits` only passes remainders modulo ten). -/
def digitChar (d : Nat) : Char :=
  match d with
  | 0 => '0' | 1 => '1' | 2 => '2' | 3 => '3' | 4 => '4'
  | 5 => '5' | 6 => '6' | 7 => '7' | 8 => '8' | _ => '9'

/-- Decimal digit list of a natural number (most significant first),
exactly the digits a JavaScript template literal renders.  Structural
recursion on a fuel argument (the number itself bounds the digit count,
so the fuel never runs out). -/
def natDigitsAux : Nat → Nat → List Char
  | 0, n => [digitChar n]
  | fuel + 1, n =>
    if n < 10 then [digitChar n]
    else natDigitsAux fuel (n / 10) ++ [digitChar (n % 10)]

def natDigits (n : Nat) : List Char := natDigitsAux n n

/-- Decimal rendering of a natural number (the `${n}` of a template literal). -/
def jsNatStr (n : Nat) : String := ⟨natDigits n⟩

/-- Decimal rendering of an integer, as JavaScript `String(i)` renders
an integral number. -/
def intStr (i : Int) : String :=
  if i < 0 then ⟨'-' :: natDigits i.natAbs⟩ else ⟨natDigits i.natAbs⟩

/-- Numeric value of a list of decimal digit characters
(`parseInt(ds, 10)` on an all-digit, non-empty string). -/
def digitsVal (ds : List Char) : Nat :=
  ds.foldl (fun a c => 10 * a + (c.toNat - 48)) 0

/-! ## Intent classifier (`detectIntent`, route.js lines 134–139) -/

inductive Intent where
  | create
  | update
  | unknown
deriving DecidableEq, Repr

/-- Source `detectIntent`: lower-case the message, then test the creation
keywords (first match wins), then the mutation keywords, else `unknown`.
The keyword tests are substring tests (`String.prototype.includes`), in
the source's order. -/
def detectIntent (msg : String) : Intent :=
  let m := jsToLower msg
  if jsIncludes m "create" || jsIncludes m "add" || jsIncludes m "new" ||
     jsIncludes m "another" || jsIncludes m "generate" || jsIncludes m "insert" ||
     jsIncludes m "make" then .create
  else if jsIncludes m "update" || jsIncludes m "change" || jsIncludes m "modify" ||
     jsIncludes m "set" || jsIncludes m "rotate" || jsIncludes m "move" ||
     jsIncludes m "resize" || jsIncludes m "shift" || jsIncludes m "adjust" ||
     jsIncludes m "position" || jsIncludes m "park" || jsIncludes m "give" then .update
  else .unknown

/-- The creation vocabulary of `detectIntent`
(create, add, new, another, make, generate, insert). -/
def createWords : List String :=
  ["create", "add", "new", "another", "generate", "insert", "make"]

/-- The mutation vocabulary of `detectIntent`. -/
def updateWords : List String :=
  ["update", "change", "modify", "set", "rotate", "move", "resize",
   "shift", "adjust", "position", "park", "give"]

/-- Claim C7: `detectIntent` returns CREATE exactly when some creation word
is a (case-insensitive) substring of the utterance — even when mutation
words are also present, the CREATE check coming first; UPDATE exactly when
no creation word occurs but some mutation word does; and UNKNOWN exactly
when no word of either vocabulary occurs. -/
theorem c7_detectIntent_vocabulary (msg : String) :
    (detectIntent msg = .create ↔
      createWords.any (fun w => jsIncludes (jsToLower msg) w) = true) ∧
    (detectIntent msg = .update ↔
      (createWords.any (fun w => jsIncludes (jsToLower msg) w) = false ∧
       updateWords.any (fun w => jsIncludes (jsToLower msg) w) = true)) ∧
    (detectIntent msg = .unknown ↔
      (createWords.any (fun w => jsIncludes (jsToLower msg) w) = false ∧
       updateWords.any (fun w => jsIncludes (jsToLower msg) w) = false)) := by
  have hC : createWords.any (fun w => jsIncludes (jsToLower msg) w) =
      (jsIncludes (jsToLower msg) "create" || jsIncludes (jsToLower msg) "add" ||
       jsIncludes (jsToLower msg) "new" || jsIncludes (jsToLower msg) "another" ||
       jsIncludes (jsToLower msg) "generate" || jsIncludes (jsToLower msg) "insert" ||
       jsIncludes (jsToLower msg) "make") := by
    simp [createWords, Bool.or_assoc]
  have hU : updateWords.any (fun w => jsIncludes (jsToLower msg) w) =
      (jsIncludes (jsToLower msg) "update" || jsIncludes (jsToLower msg) "change" ||
       jsIncludes (jsToLower msg) "modify" || jsIncludes (jsToLower msg) "set" ||
       jsIncludes (jsToLower msg) "rotate" || jsIncludes (jsToLower msg) "move" ||
       jsIncludes (jsToLower msg) "resize" || jsIncludes (jsToLower msg) "shift" ||
       jsIncludes (jsToLower msg) "adjust" || jsIncludes (jsToLower msg) "position" ||
       jsIncludes (jsToLower msg) "park" || jsIncludes (jsToLower msg) "give") := by
    simp [updateWords, Bool.or_assoc]
  rw [hC, hU]
  unfold detectIntent
  cases hc : (jsIncludes (jsToLower msg) "create" || jsIncludes (jsToLower msg) "add" ||
       jsIncludes (jsToLower msg) "new" || jsIncludes (jsToLower msg) "another" ||
       jsIncludes (jsToLower msg) "generate" || jsIncludes (jsToLower msg) "insert" ||
       jsIncludes (jsToLower msg) "make") <;>
    cases hu : (jsIncludes (jsToLower msg) "update" || jsIncludes (jsToLower msg) "change" ||
       jsIncludes (jsToLower msg) "modify" || jsIncludes (jsToLower msg) "set" ||
       jsIncludes (jsToLower msg) "rotate" || jsIncludes (jsToLower msg) "move" ||
       jsIncludes (jsToLower msg) "resize" || jsIncludes (jsToLower msg) "shift" ||
       jsIncludes (jsToLower msg) "adjust" || jsIncludes (jsToLower msg) "position" ||
       jsIncludes (jsToLower msg) "park" || jsIncludes (jsToLower msg) "give") <;>
    simp_all

/-- Witness for C7: on the concrete utterance "create and rotate a pad"
(containing both vocabularies) the theorem yields intent CREATE, and on
"rotate the pad" it yields UPDATE. -/
theorem c7_detectIntent_vocabulary_witness :
    detectIntent "create and rotate a pad" = .create ∧
    detectIntent "rotate the pad" = .update := by
  constructor
  · exact (c7_detectIntent_vocabulary "create and rotate a pad").1.mpr (by decide)
  · exact (c7_detectIntent_vocabulary "rotate the pad").2.1.mpr (by decide)

/-! ## JSON values and the document normalizer (`normalizeJson`, lines 54–95)

The normalizer receives the raw `existingJson` of the request body, so it
is embedded over a JSON universe `JValue`.  JavaScript numbers are
modelled by `Int` (the claims about the normalizer involve no fractional
values); object fields are ordered association lists, as JavaScript
objects preserve insertion order. -/

inductive JValue where
  | null
  | bool (b : Bool)
  | num (i : Int)
  | str (s : String)
  | arr (xs : List JValue)
  | obj (kvs : List (String × JValue))

/-- JavaScript truthiness of a value. -/
def truthy : JValue → Bool
  | .null => false
  | .bool b => b
  | .num i => i ≠ 0
  | .str s => s ≠ ""
  | .arr _ => true
  | .obj _ => true

/-- Property read `m[k]`: the first occurrence of the key. -/
def jsGet (kvs : List (String × JValue)) (k : String) : Option JValue :=
  match kvs with
  | [] => none
  | (k', v) :: rest => if k' = k then some v else jsGet rest k

/-- Property write `m[k] = v`: overwrite the existing key in place
(JavaScript objects keep a key's insertion position), else append. -/
def jsSet (kvs : List (String × JValue)) (k : String) (v : JValue) :
    List (String × JValue) :=
  match kvs with
  | [] => [(k, v)]
  | (k', v') :: rest => if k' = k then (k, v) :: rest else (k', v') :: jsSet rest k v

/-- Assign a list of key/value pairs one by one onto an accumulator object,
the semantics of object spread `{...a, ...b}` over the concatenated pair
lists of `a` and `b`. -/
def jsObjAssign (acc : List (String × JValue)) :
    List (String × JValue) → List (String × JValue)
  | [] => acc
  | (k, v) :: rest => jsObjAssign (jsSet acc k v) rest

/-- Decimal-indexed pairs `("0", x0), ("1", x1), …` starting at index `i`. -/
def indexedPairs (i : Nat) : List JValue → List (String × JValue)
  | [] => []
  | x :: xs => (jsNatStr i, x) :: indexedPairs (i + 1) xs

/-- Own enumerable key/value pairs contributed by a value under object
spread `{...v}`: an object yields its fields, an array its indexed
elements, a string its indexed characters, primitives nothing. -/
def spreadPairs : JValue → List (String × JValue)
  | .obj kvs => kvs
  | .arr xs => indexedPairs 0 xs
  | .str s => indexedPairs 0 (s.data.map (fun c => JValue.str ⟨[c]⟩))
  | _ => []

/-- The key/value pairs visited by `for (const key in v)` together with the
reads `v[key]`: same shape as `spreadPairs` for the values that occur. -/
def forInPairs (v : JValue) : List (String × JValue) := spreadPairs v

mutual
/-- JavaScript string coercion of an array element during
`Array.prototype.toString` (`join(",")`): `null` renders empty, nested
arrays recurse, plain objects render "[object Object]". -/
def jsElemStr : JValue → String
  | .null => ""
  | .bool b => if b then "true" else "false"
  | .num i => intStr i
  | .str s => s
  | .arr ys => jsArrStr ys
  | .obj _ => "[object Object]"

/-- `xs.join(",")` after element coercion. -/
def jsArrStr : List JValue → String
  | [] => ""
  | [x] => jsElemStr x
  | x :: y :: xs => jsElemStr x ++ "," ++ jsArrStr (y :: xs)
end

/-- One key of one element of an array input, merged into the
accumulator (`normalizeJson` lines 70–82): array values concatenate onto
the accumulated value (a falsy accumulated value is first replaced by
`[]`; a truthy string accumulates via `String.prototype.concat`, which
coerces the array; any other truthy non-array value has no `concat`
method and the source throws a `TypeError`); non-null object values
shallow-merge by object spread; all other values overwrite. -/
def mergeKey (acc : List (String × JValue)) (k : String) (v : JValue) :
    Except String (List (String × JValue)) :=
  match v with
  | .arr a =>
    let cur0 := (jsGet acc k).getD .null
    let cur := if truthy cur0 then cur0 else .arr []
    match cur with
    | .arr b => .ok (jsSet acc k (.arr (b ++ a)))
    | .str s => .ok (jsSet acc k (.str (s ++ jsArrStr a)))
    | _ => .error "TypeError: acc[key].concat is not a function"
  | .obj kvs =>
    let cur0 := (jsGet acc k).getD .null
    let base := if truthy cur0 then spreadPairs cur0 else []
    .ok (jsSet acc k (.obj (jsObjAssign [] (base ++ kvs))))
  | _ => .ok (jsSet acc k v)

/-- One element of an array input folded into the accumulator. -/
def mergeElem (acc : List (String × JValue)) (el : JValue) :
    Except String (List (String × JValue)) :=
  (forInPairs el).foldlM (fun a kv => mergeKey a kv.1 kv.2) acc

/-- The fixed enumeration of known layer-type keys, in the source's order. -/
def possibleLayers : List String :=
  ["FATO", "TLOF", "TAXIWAY", "SHAPE", "MODEL", "VOLUME", "FLIGHTPATH", "FLIGHTPATH_VFR"]

/-- `if (!Array.isArray(normalized[layer])) normalized[layer] = []`. -/
def ensureArr (kvs : List (String × JValue)) (name : String) :
    List (String × JValue) :=
  match jsGet kvs name with
  | some (.arr _) => kvs
  | _ => jsSet kvs name (.arr [])

/-- Shallow copy `{...(input || {})}` of a non-array input. -/
def objCopy (v : JValue) : List (String × JValue) :=
  jsObjAssign [] (if truthy v then spreadPairs v else [])

/-- Source `normalizeJson`: an array input is reduced key-by-key into a
single object (arrays concatenate, objects shallow-merge, scalars
overwrite; a `TypeError` escapes as an error), any other input is
shallow-copied; afterwards every known layer key that is not an array is
set to the empty array. -/
def normalizeBase (input : JValue) : Except String (List (String × JValue)) :=
  match input with
  | .arr xs => xs.foldlM mergeElem ([] : List (String × JValue))
  | v => .ok (objCopy v)

def normalizeJson (input : JValue) : Except String JValue :=
  match normalizeBase input with
  | .ok base => .ok (.obj (possibleLayers.foldl ensureArr base))
  | .error e => .error e

/-! ## Typed scene documents

The merge engine, resolver and default factory always operate on
already-normalized documents (`POST` normalizes `existingJson` on entry,
and `mergeUpdates` re-normalizes, which is the identity on normalized
documents — claim C10).  They are therefore embedded over a typed
document: every known layer type maps to a sequence of layer instances.
A layer instance carries the four fields the source reads or writes
(`id`, `position`, `isVisible`, `dimensions`); dimension values are
numbers (`Rat`), strings, booleans or null, and `layerName`, when
present, is a display string per the data model. -/

inductive DValue where
  | num (q : Rat)
  | str (s : String)
  | bool (b : Bool)
  | null
deriving DecidableEq, Repr

/-- A (possibly partial) layer instance / proposal entry.  Absent
JavaScript fields (`undefined`) are `none` / the empty map. -/
structure LayerObj where
  id : Option String := none
  position : Option (List Rat) := none
  isVisible : Option Bool := none
  dimensions : List (String × DValue) := []
deriving DecidableEq, Repr

inductive LayerType where
  | FATO | TLOF | TAXIWAY | SHAPE | MODEL | VOLUME | FLIGHTPATH | FLIGHTPATH_VFR
deriving DecidableEq, Repr

/-- A normalized scene document: every known layer type present as a
sequence. -/
structure SceneDoc where
  FATO : List LayerObj := []
  TLOF : List LayerObj := []
  TAXIWAY : List LayerObj := []
  SHAPE : List LayerObj := []
  MODEL : List LayerObj := []
  VOLUME : List LayerObj := []
  FLIGHTPATH : List LayerObj := []
  FLIGHTPATH_VFR : List LayerObj := []
deriving DecidableEq, Repr

def SceneDoc.get (d : SceneDoc) : LayerType → List LayerObj
  | .FATO => d.FATO
  | .TLOF => d.TLOF
  | .TAXIWAY => d.TAXIWAY
  | .SHAPE => d.SHAPE
  | .MODEL => d.MODEL
  | .VOLUME => d.VOLUME
  | .FLIGHTPATH => d.FLIGHTPATH
  | .FLIGHTPATH_VFR => d.FLIGHTPATH_VFR

/-- The canonical layer-type key string. -/
def layerKey : LayerType → String
  | .FATO => "FATO"
  | .TLOF => "TLOF"
  | .TAXIWAY => "TAXIWAY"
  | .SHAPE => "SHAPE"
  | .MODEL => "MODEL"
  | .VOLUME => "VOLUME"
  | .FLIGHTPATH => "FLIGHTPATH"
  | .FLIGHTPATH_VFR => "FLIGHTPATH_VFR"

/-- The `displayNames` table (canonical default display name per type);
it is total over the enumeration, so the source's `|| layerType`
fallback is never taken. -/
def displayName : LayerType → String
  | .TLOF => "LANDING SURFACE"
  | .FATO => "GEOMETRY"
  | .TAXIWAY => "TAXIWAY"
  | .SHAPE => "SHAPES"
  | .MODEL => "MODEL LIBRARY"
  | .VOLUME => "OFV"
  | .FLIGHTPATH => "FLIGHT PATH"
  | .FLIGHTPATH_VFR => "OLS"

/-- Dimension-map read.  -/
def dimGet (dims : List (String × DValue)) (k : String) : Option DValue :=
  match dims with
  | [] => none
  | (k', v) :: rest => if k' = k then some v else dimGet rest k

/-- Key-presence test on a dimension map. -/
def dimHasKey (dims : List (String × DValue)) (k : String) : Bool :=
  (dimGet dims k).isSome

/-- The read `l.dimensions?.layerName` as a string: the stored display
string, or the empty string when the key is absent or null/false/zero
(all of which the source's `(name || "")` coalesces to `""`). -/
def layerNameStr (dims : List (String × DValue)) : String :=
  match dimGet dims "layerName" with
  | some (.str s) => s
  | _ => ""

/-- Object spread `{...a, ...b}` on dimension maps: the keys of `a` in
their positions with values of `b` overriding, followed by the keys of
`b` not present in `a`, in order. -/
def jsMergeObj (a b : List (String × DValue)) : List (String × DValue) :=
  (a.map (fun kv => match dimGet b kv.1 with
    | some w => (kv.1, w)
    | none => kv)) ++
  b.filter (fun kv => !(dimHasKey a kv.1))

/-! ## The merge engine (`mergeUpdates`, lines 331–411) -/

/-- The inner `normalizeName`: lower-case and strip every whitespace and
underscore character (`replace(/[\s_]+/g, "")`). -/
def normalizeName (name : String) : String :=
  ⟨(jsToLower name).data.filter (fun c => ¬ (isWsChar c || c = '_'))⟩

/-- The `findIndex` predicate of the update branch: the existing
instance's `id` is truthy (a non-empty string) and equal to the
proposal's, or the two normalized `layerName`s coincide. -/
def entryMatches (l u : LayerObj) : Bool :=
  (match l.id, u.id with
   | some a, some b => a ≠ "" && a = b
   | _, _ => false) ||
  normalizeName (layerNameStr l.dimensions) = normalizeName (layerNameStr u.dimensions)

/-- The in-place merge of a matched instance (lines 385–394):
`position`/`isVisible` replaced only when the proposal supplies them
(`??`), `dimensions` shallow-merged with proposal keys overriding, `id`
taken from the proposal when supplied (`??`), else retained. -/
def mergeInto (old u : LayerObj) : LayerObj :=
  { position := u.position.orElse (fun _ => old.position)
    isVisible := u.isVisible.orElse (fun _ => old.isVisible)
    dimensions := jsMergeObj old.dimensions u.dimensions
    id := u.id.orElse (fun _ => old.id) }

/-- `firstName.replace(/\s*\(\d+\)$/, "")`: strip one trailing
parenthesized number (with any whitespace run before it). -/
def stripRev : List Char → Option (List Char)
  | ')' :: rest =>
    let ds := rest.takeWhile isDigitCh
    if ds.isEmpty then none
    else match rest.drop ds.length with
      | '(' :: rest2 => some ((rest2.dropWhile isWsChar).reverse)
      | _ => none
  | _ => none

def stripParenSuffix (s : String) : String :=
  match stripRev s.data.reverse with
  | some l => ⟨l⟩
  | none => s

/-- The base name `getNextLayerName` scans with: the display name when
the sequence is empty, else the first instance's name with a trailing
"(N)" stripped. -/
def baseNameOf (t : LayerType) (seq : List LayerObj) : String :=
  match seq with
  | [] => displayName t
  | l :: _ => stripParenSuffix (layerNameStr l.dimensions)

/-- The per-item regex `^<base>\s*\((\d+)\)$` (case-insensitive), with
the base name matched literally: the captured number, if the whole name
matches.  (The source interpolates `baseName` textually into a `RegExp`;
this model treats it as literal text, which is exact for base names free
of regex metacharacters — in particular bases of alphanumerics, spaces
and parenthesized numeric suffixes; see `litSafeBase`.) -/
def baseNumMatch (base name : String) : Option Nat :=
  let bl := (jsToLower base).data
  let nl := (jsToLower name).data
  if isPrefixL bl nl then
    let rest := nl.drop bl.length
    let r1 := rest.dropWhile isWsChar
    match r1 with
    | '(' :: r2 =>
      let ds := r2.takeWhile isDigitCh
      if ds.isEmpty then none
      else match r2.drop ds.length with
        | [')'] => some (digitsVal ds)
        | _ => none
    | _ => none
  else none

/-- Base names over which the literal reading of the interpolated
`RegExp` agrees with JavaScript: alphanumerics and spaces only. -/
def litSafeBase (s : String) : Prop :=
  ∀ c ∈ s.data, c.isAlphanum = true ∨ c = ' '

/-- The scan for the highest existing "(N)" suffix over the given base
(`maxId`, lines 353–369). -/
def maxSuffix (base : String) (seq : List LayerObj) : Nat :=
  seq.foldl (fun m l =>
    match baseNumMatch base (layerNameStr l.dimensions) with
    | some n => max m n
    | none => m) 0

/-- Source `getNextLayerName`, as a function of the current sequence of
its layer type: `"<base> (<maxId + 1>)"`. -/
def getNextLayerName (t : LayerType) (seq : List LayerObj) : String :=
  let base := baseNameOf t seq
  base ++ " (" ++ jsNatStr (maxSuffix base seq + 1) ++ ")"

/-- The freshly created instance of the creation branch (lines 400–406):
`position` defaults to `[0,0]` (`||`; a present position array is always
truthy), `isVisible` defaults to true (`??`), the proposal's dimensions
receive the generated `layerName`, and the `id` is the proposal's when
truthy, else `"<key>-<Date.now()>"`. -/
def newLayer (t : LayerType) (now : Nat) (u : LayerObj) (seq : List LayerObj) :
    LayerObj :=
  { position := some (u.position.getD [0, 0])
    isVisible := some (u.isVisible.getD true)
    dimensions := jsMergeObj u.dimensions [("layerName", .str (getNextLayerName t seq))]
    id := some (match u.id with
      | some s => if s = "" then layerKey t ++ "-" ++ jsNatStr now else s
      | none => layerKey t ++ "-" ++ jsNatStr now) }

/-- Replace the first instance matching the proposal, in place
(`findIndex` followed by indexed assignment); `none` when no instance
matches. -/
def updateFirstMatch (u : LayerObj) : List LayerObj → Option (List LayerObj)
  | [] => none
  | l :: ls =>
    if entryMatches l u then some (mergeInto l u :: ls)
    else (updateFirstMatch u ls).map (l :: ·)

/-- One proposal entry folded into the sequence of its layer type
(the `forEach` body, lines 377–407): under UPDATE intent a matching
instance is merged in place, otherwise (no match, or any other intent) a
fresh instance is appended. -/
def mergeEntry (t : LayerType) (now : Nat) (intent : Intent)
    (seq : List LayerObj) (u : LayerObj) : List LayerObj :=
  if intent = .update then
    match updateFirstMatch u seq with
    | some seq' => seq'
    | none => seq ++ [newLayer t now u seq]
  else seq ++ [newLayer t now u seq]

/-- All entries proposed for one layer type, folded left to right. -/
def mergeLayerSeq (t : LayerType) (now : Nat) (intent : Intent)
    (seq : List LayerObj) (entries : List LayerObj) : List LayerObj :=
  entries.foldl (mergeEntry t now intent) seq

/-- A proposal: the `data` object, as a partial mapping from layer-type
keys to entry sequences.  A missing/falsy `data[key]` is `none` and is
skipped (`if (!data[key]) continue`). -/
def Proposal := LayerType → Option (List LayerObj)

/-- The singleton proposal `{ t: [u] }`. -/
def singleProposal (t : LayerType) (u : LayerObj) : Proposal :=
  fun t' => if t' = t then some [u] else none

/-- Source `mergeUpdates`.  The source first re-normalizes the incoming
document (the identity here, documents being typed) and then processes
the keys FATO, TLOF, …, FLIGHTPATH_VFR in order; since each key's pass
reads and writes only that key's sequence, the document is merged
field-wise.  `userMessage` is accepted and ignored, as in the source;
`now` stands for `Date.now()`. -/
def mergeUpdates (existingJson : SceneDoc) (data : Proposal)
    (_userMessage : String) (intent : Intent) (now : Nat) : SceneDoc where
  FATO := match data .FATO with
    | none => existingJson.FATO
    | some es => mergeLayerSeq .FATO now intent existingJson.FATO es
  TLOF := match data .TLOF with
    | none => existingJson.TLOF
    | some es => mergeLayerSeq .TLOF now intent existingJson.TLOF es
  TAXIWAY := match data .TAXIWAY with
    | none => existingJson.TAXIWAY
    | some es => mergeLayerSeq .TAXIWAY now intent existingJson.TAXIWAY es
  SHAPE := match data .SHAPE with
    | none => existingJson.SHAPE
    | some es => mergeLayerSeq .SHAPE now intent existingJson.SHAPE es
  MODEL := match data .MODEL with
    | none => existingJson.MODEL
    | some es => mergeLayerSeq .MODEL now intent existingJson.MODEL es
  VOLUME := match data .VOLUME with
    | none => existingJson.VOLUME
    | some es => mergeLayerSeq .VOLUME now intent existingJson.VOLUME es
  FLIGHTPATH := match data .FLIGHTPATH with
    | none => existingJson.FLIGHTPATH
    | some es => mergeLayerSeq .FLIGHTPATH now intent existingJson.FLIGHTPATH es
  FLIGHTPATH_VFR := match data .FLIGHTPATH_VFR with
    | none => existingJson.FLIGHTPATH_VFR
    | some es => mergeLayerSeq .FLIGHTPATH_VFR now intent existingJson.FLIGHTPATH_VFR es

/-! ## Layer-type mapping (`mapLayersFromUserMessage`, lines 98–131) and
the route's layer selection (`POST`, lines 529–535) -/

/-- JavaScript `\w` (word character) on the ASCII range. -/
def isWordChar (c : Char) : Bool := c.isAlphanum || c = '_'

/-- `replace(/[\s_]+/g, " ")`: collapse every run of whitespace and
underscores to a single space. -/
def collapseAux (prevWs : Bool) : List Char → List Char
  | [] => []
  | c :: cs =>
    if isWsChar c || c = '_' then
      if prevWs then collapseAux true cs else ' ' :: collapseAux true cs
    else c :: collapseAux false cs

def collapseWsU (s : List Char) : List Char := collapseAux false s

/-- Match of `\b<kw>\b` starting exactly at the head of `text`, where
`prev` is the character before that position (the keywords all start and
end with word characters, so the boundaries require a non-word
neighbour or the string edge). -/
def wholeWordAt (kw : List Char) (prev : Option Char) (text : List Char) : Bool :=
  isPrefixL kw text &&
  (match prev with
   | none => true
   | some p => ¬ isWordChar p) &&
  (match text.drop kw.length with
   | [] => true
   | c :: _ => ¬ isWordChar c)

def wholeWordSearch (kw : List Char) : Option Char → List Char → Bool
  | prev, [] => wholeWordAt kw prev []
  | prev, c :: cs => wholeWordAt kw prev (c :: cs) || wholeWordSearch kw (some c) cs

/-- `new RegExp("\\b" + kw + "\\b", "i").test(text)` for a keyword made
of word characters and spaces, over an already lower-cased text. -/
def wholeWordMatch (kw text : List Char) : Bool := wholeWordSearch kw none text

/-- The synonyms dictionary, in its source (registry) order. -/
def synonyms : List (LayerType × List String) :=
  [(.TLOF, ["tlof", "landing surface", "landing area"]),
   (.FATO, ["fato", "geometry", "final approach", "approach area", "approach surface"]),
   (.TAXIWAY, ["taxiway", "taxi route", "taxi path"]),
   (.SHAPE, ["shape", "shapes"]),
   (.MODEL, ["model library", "model", "crane", "truck", "hanger", "storage",
             "aircraft", "container", "electric", "charging", "tree", "connector"]),
   (.VOLUME, ["ofv", "volume", "cylinder volume", "rectilinear volume"]),
   (.FLIGHTPATH, ["flightpath", "flight path", "runway"]),
   (.FLIGHTPATH_VFR, ["ols", "flightpath vfr"])]

/-- `[...new Set(layers)]`: remove duplicates keeping first occurrences. -/
def dedupFirstAux (seen : List LayerType) : List LayerType → List LayerType
  | [] => []
  | t :: ts =>
    if t ∈ seen then dedupFirstAux seen ts
    else t :: dedupFirstAux (t :: seen) ts

def dedupFirst (ts : List LayerType) : List LayerType := dedupFirstAux [] ts

/-- Source `mapLayersFromUserMessage`: lower-case and collapse
whitespace/underscores, push TLOF and FATO on "landing pad"/"helipad"
(plain substring test), then push each layer type whose synonym list has
a whole-word match, in registry order; finally deduplicate. -/
def mapLayersFromUserMessage (msg : String) : List LayerType :=
  let text := collapseWsU (jsToLower msg).data
  let special :=
    if isInfixL "landing pad".data text || isInfixL "helipad".data text
    then [LayerType.TLOF, LayerType.FATO] else []
  let syn := (synonyms.filter
      (fun p => p.2.any (fun kw => wholeWordMatch kw.data text))).map (·.1)
  dedupFirst (special ++ syn)

/-- The route's layer-type selection (`POST` lines 529–535): the keyword
mapping under CREATE and UPDATE, and the initial empty list under any
other intent (the `let selectedLayers = []` is never reassigned). -/
def selectLayers (intent : Intent) (msg : String) : List LayerType :=
  match intent with
  | .create => mapLayersFromUserMessage msg
  | .update => mapLayersFromUserMessage msg
  | .unknown => []

/-! ## Default layer factory (`parseAircraftName` lines 163–168,
`createDefaultLayer` lines 180–328) -/

/-- The capture class `[A-Za-z0-9\- ]`. -/
def nameClassChar (c : Char) : Bool := c.isAlphanum || c = '-' || c = ' '

/-- The `\s+([A-Za-z0-9\- ]{2,50})` tail of the name regex, with the
backtracking of a greedy `\s+` (longest whitespace run first, giving
back trailing spaces to the capture class when fewer than two class
characters follow).  Returns the captured text. -/
def nameTailTryK : Nat → List Char → Option (List Char)
  | 0, _ => none
  | k + 1, rest =>
    let rem := rest.drop (k + 1)
    let run := rem.takeWhile nameClassChar
    if run.length ≥ 2 then some (run.take 50) else nameTailTryK k rest

def nameTail (rest : List Char) : Option (List Char) :=
  nameTailTryK (rest.takeWhile isWsChar).length rest

/-- Leftmost match of `(?:for|of)\s+([A-Za-z0-9\- ]{2,50})` (flag `i`):
at each position try "for", then "of", then move one character right. -/
def findNamePhrase : List Char → Option (List Char)
  | [] => none
  | c :: cs =>
    let here :=
      (if ((c :: cs).take 3).map lcChar = ['f', 'o', 'r']
       then nameTail ((c :: cs).drop 3) else none).orElse (fun _ =>
        if ((c :: cs).take 2).map lcChar = ['o', 'f']
        then nameTail ((c :: cs).drop 2) else none)
    here.orElse (fun _ => findNamePhrase cs)

/-- Source `parseAircraftName`: the captured phrase trimmed, stripped of
whitespace, stripped of non-alphanumerics; `"001"` when there is no
match or the cleanup empties the capture. -/
def parseAircraftName (text : String) : String :=
  match findNamePhrase text.data with
  | none => "001"
  | some cap =>
    let t1 := (cap.dropWhile isWsChar).reverse.dropWhile isWsChar |>.reverse
    let t2 := t1.filter (fun c => ¬ isWsChar c)
    let t3 := t2.filter Char.isAlphanum
    if t3.isEmpty then "001" else ⟨t3⟩

/-- The per-type default dimension templates of `createDefaultLayer`'s
switch (the embedded LayerCatalog).  The switch matches the strings
"TLOF", "FATO", "TAXIWAY" and "SHAPES"; every other type string falls to
the default template. -/
def templateDims (layerType : String) : List (String × DValue) :=
  if layerType = "TLOF" then
    [("sides", .num 4), ("diameter", .num 30), ("width", .num 30),
     ("length", .num 30), ("thickness", .num 0.5), ("rotation", .num 0),
     ("transparency", .num 1), ("baseHeight", .num 0), ("textureScaleU", .num 1),
     ("textureScaleV", .num 1), ("markingType", .str "dashed"),
     ("markingColor", .str "white"), ("markingThickness", .num 0.5),
     ("dashDistance", .num 1), ("dashLength", .num 1), ("landingMarker", .str "H"),
     ("markerScale", .num 5), ("markerThickness", .num 0.5),
     ("letterThickness", .num 0.5), ("markerRotation", .num 0),
     ("markerColor", .str "blue"), ("tdpcType", .str "Circle"),
     ("tdpcScale", .num 5), ("tdpcThickness", .num 0.5),
     ("tdpcExtrusion", .num 0.02), ("tdpcRotation", .num 0),
     ("tdpcColor", .str "white"), ("lightColor", .str "white"),
     ("lightScale", .num 1), ("lightDistance", .num 1), ("lightRadius", .num 0.3),
     ("lightHeight", .num 0.2), ("safetyAreaType", .str "multiplier"),
     ("offsetDistance", .num 3), ("dValue", .num 10), ("multiplier", .num 1.5),
     ("curveAngle", .num 45), ("safetyNetHeight", .num 15),
     ("safetyNetTransparency", .num 0.5), ("safetyNetScaleU", .num 1),
     ("safetyNetScaleV", .num 1), ("safetyNetColor", .str "white")]
  else if layerType = "FATO" then
    [("sides", .num 6), ("diameter", .num 30), ("width", .num 30),
     ("length", .num 30), ("thickness", .num 0.5), ("rotation", .num 0),
     ("transparency", .num 1), ("baseHeight", .num 0), ("textureScaleU", .num 1),
     ("textureScaleV", .num 1), ("lightColor", .str "white"),
     ("lightScale", .num 1), ("lightDistance", .num 1), ("lightRadius", .num 0.3),
     ("lightHeight", .num 0.2)]
  else if layerType = "TAXIWAY" then
    [("sides", .num 4), ("diameter", .num 30), ("width", .num 50),
     ("length", .num 300), ("thickness", .num 0.6), ("rotation", .num 0),
     ("transparency", .num 1), ("baseHeight", .num 0), ("textureScaleU", .num 1),
     ("textureScaleV", .num 1), ("lineColor", .str "white"),
     ("lineWidth", .num 0.5), ("lightColor", .str "white"), ("lightScale", .num 1),
     ("lightDistance", .num 1), ("lightRadius", .num 0.3), ("lightHeight", .num 0.2)]
  else if layerType = "SHAPES" then
    [("sides", .num 4), ("diameter", .num 30), ("width", .num 100),
     ("length", .num 100), ("thickness", .num 0.4), ("rotation", .num 0),
     ("transparency", .num 1), ("baseHeight", .num 0), ("textureScaleU", .num 1),
     ("textureScaleV", .num 1), ("surfaceType", .str "concrete"),
     ("markingColor", .str "yellow"), ("lightColor", .str "white"),
     ("lightScale", .num 1), ("lightDistance", .num 1), ("lightRadius", .num 0.3),
     ("lightHeight", .num 0.2)]
  else
    [("sides", .num 4), ("diameter", .num 30), ("width", .num 30),
     ("length", .num 30), ("thickness", .num 0.5), ("rotation", .num 0),
     ("transparency", .num 1), ("baseHeight", .num 0),
     ("lightColor", .str "white"), ("lightScale", .num 1),
     ("lightDistance", .num 1), ("lightRadius", .num 0.3), ("lightHeight", .num 0.2)]

/-- Source `createDefaultLayer`, with the layer type already resolved
(the `forcedLayerType || parseLayerType(userMessage)` of lines 171–182 —
every caller that the claims cover passes a forced canonical type).
Returns the one-key object `{ [layerType]: [layer] }` as the pair of the
key and its sequence.  The layer starts from
`{ position: [0,0], isVisible: true, dimensions: { layerName: … } }` and
each switch branch object-spreads the template over those dimensions. -/
def createDefaultLayer (userMessage : String) (layerType : String) :
    String × List LayerObj :=
  let aircraftName := parseAircraftName userMessage
  let layer : LayerObj :=
    { position := some [0, 0]
      isVisible := some true
      dimensions := jsMergeObj
        [("layerName", .str (layerType ++ "_" ++ aircraftName))]
        (templateDims layerType) }
  (layerType, [layer])

/-! ## Reference resolver (`getRelevantLayers`, lines 414–475) and the
route's error short-circuit (`POST`, lines 538–543 and 690) -/

/-- One attempt of the pattern `\s*\(?\s*(\d+)\s*\)?` directly after an
occurrence of the base name: whitespace, optional "(", whitespace, one
or more digits (captured), whitespace, optional ")".  Returns the
captured digit string and the remainder after the whole match (the
regex's `lastIndex`); every quantifier here is effectively
deterministic. -/
def numTailMatch (rest : List Char) : Option (String × List Char) :=
  let r1 := rest.dropWhile isWsChar
  let r2 := match r1 with
    | '(' :: t => t
    | _ => r1
  let r3 := r2.dropWhile isWsChar
  let ds := r3.takeWhile isDigitCh
  if ds.isEmpty then none
  else
    let r4 := r3.drop ds.length
    let r5 := r4.dropWhile isWsChar
    let r6 := match r5 with
      | ')' :: t => t
      | _ => r5
    some (⟨ds⟩, r6)

/-- The global scan
`while ((match = regex.exec(msgUpper)) !== null) … push(match[1])` for
the pattern `<BASE>\s*\(?\s*(\d+)\s*\)?`: at each position try the base
name (literally — see `litSafeBase`) followed by the numeric tail; on
success record the capture and resume after the match, else advance one
character.  `fuel` bounds the scanned positions; it is always called
with the full length, which suffices since every step consumes at least
one character. -/
def collectNumsAux (base : List Char) : Nat → List Char → List String
  | 0, _ => []
  | _, [] => []
  | fuel + 1, c :: cs =>
    if isPrefixL base (c :: cs) then
      match numTailMatch ((c :: cs).drop base.length) with
      | some (d, rest) => d :: collectNumsAux base fuel rest
      | none => collectNumsAux base fuel cs
    else collectNumsAux base fuel cs

def collectNums (base msgUpper : List Char) : List String :=
  collectNumsAux base msgUpper.length msgUpper

/-- `layerName.toUpperCase().replace(/[\s_]+/g, "").replace(/\(|\)/g, "")`. -/
def normNameRes (s : String) : String :=
  ⟨((jsToUpper s).data.filter (fun c => ¬ (isWsChar c || c = '_'))).filter
     (fun c => ¬ (c = '(' || c = ')'))⟩

/-- `(baseName + num).replace(/[\s_]+/g, "")`. -/
def baseNumKey (base num : String) : String :=
  ⟨(base ++ num).data.filter (fun c => ¬ (isWsChar c || c = '_'))⟩

/-- The resolver's per-instance predicate: the numbered display name
occurs in the message, or the instance's (non-empty) id occurs verbatim
(upper-cased) in the upper-cased message. -/
def resolverMatches (base : String) (nums : List String) (msgUpper : String)
    (l : LayerObj) : Bool :=
  nums.any (fun num => normNameRes (layerNameStr l.dimensions) = baseNumKey base num) ||
  (match l.id with
   | some s => s ≠ "" && isInfixL (jsToUpper s).data msgUpper.data
   | none => false)

/-- The matched subset for one layer type. -/
def matchedFor (doc : SceneDoc) (t : LayerType) (msg : String) : List LayerObj :=
  let msgUpper := jsToUpper msg
  let base := displayName t
  let nums := collectNums base.data msgUpper.data
  (doc.get t).filter (resolverMatches base nums msgUpper)

/-- `allLayers.map(l => l.dimensions?.layerName || l.id).join(", ") || "None"`. -/
def availableNames (seq : List LayerObj) : String :=
  let j := String.intercalate ", " (seq.map (fun l =>
    let n := layerNameStr l.dimensions
    if n = "" then l.id.getD "" else n))
  if j = "" then "None" else j

/-- The update-miss error message for one layer type. -/
def missErrMsg (t : LayerType) (seq : List LayerObj) : String :=
  "No such " ++ displayName t ++ " found. Available " ++ displayName t ++ "s: " ++
    availableNames seq

/-- The error trigger for one layer type under UPDATE intent: nothing
matched although the message names a number for this type or mentions
"ID". -/
def missErrCond (doc : SceneDoc) (t : LayerType) (msg : String)
    (intent : Intent) : Bool :=
  intent = .update && (matchedFor doc t msg).isEmpty &&
  (¬ (collectNums (displayName t).data (jsToUpper msg).data).isEmpty ||
   jsIncludes (jsToUpper msg) "ID")

/-- Source `getRelevantLayers`: per candidate type the matched subset is
recorded (for CREATE and UPDATE alike, line 460); the errors collected
from the update-miss fallback, if any, replace the whole result. -/
def getRelevantLayers (existingJson : SceneDoc) (selectedLayers : List LayerType)
    (userMessage : String) (intent : Intent) :
    Except String (List (LayerType × List LayerObj)) :=
  let relevant := selectedLayers.map (fun t => (t, matchedFor existingJson t userMessage))
  let errors := (selectedLayers.filter
      (fun t => missErrCond existingJson t userMessage intent)).map
      (fun t => missErrMsg t (existingJson.get t))
  if errors.isEmpty then .ok relevant
  else .error (String.intercalate " | " errors)

/-- The route's resolve-then-merge phase (`POST` lines 538–543 and 690):
a resolver error terminates the request carrying only the error and no
merge is performed; otherwise the proposal `data` (produced by the
out-of-scope ProposalSource / default factory) is merged.  -/
def postMergePhase (existingJson : SceneDoc) (selectedLayers : List LayerType)
    (userMessage : String) (intent : Intent) (data : Proposal) (now : Nat) :
    Except String SceneDoc :=
  match getRelevantLayers existingJson selectedLayers userMessage intent with
  | .error e => .error e
  | .ok _ => .ok (mergeUpdates existingJson data userMessage intent now)

/-! ## Basic lemmas: digits, case mapping, prefixes -/

theorem digitChar_toNat {d : Nat} (h : d < 10) : (digitChar d).toNat = 48 + d := by
  interval_cases d <;> rfl

theorem isDigitCh_digitChar {d : Nat} (h : d < 10) : isDigitCh (digitChar d) = true := by
  interval_cases d <;> rfl

theorem lcChar_eq_self_of_toNat_lt {c : Char} (h : c.toNat < 65) : lcChar c = c := by
  unfold lcChar
  rw [if_neg]
  omega

theorem lcChar_digit {c : Char} (h : isDigitCh c = true) : lcChar c = c := by
  refine lcChar_eq_self_of_toNat_lt ?_
  simp only [isDigitCh, Bool.and_eq_true, decide_eq_true_eq] at h
  omega

theorem natDigitsAux_ne_nil (fuel n : Nat) : natDigitsAux fuel n ≠ [] := by
  cases fuel with
  | zero => simp [natDigitsAux]
  | succ f =>
    unfold natDigitsAux
    split <;> simp

theorem natDigits_ne_nil (n : Nat) : natDigits n ≠ [] := natDigitsAux_ne_nil n n

theorem natDigitsAux_all_digit :
    ∀ (fuel n : Nat), n ≤ fuel + 9 → ∀ c ∈ natDigitsAux fuel n, isDigitCh c = true := by
  intro fuel
  induction fuel with
  | zero =>
    intro n hn c hc
    simp only [natDigitsAux, List.mem_singleton] at hc
    subst hc
    exact isDigitCh_digitChar (by omega)
  | succ f ih =>
    intro n hn c hc
    unfold natDigitsAux at hc
    by_cases h : n < 10
    · rw [if_pos h] at hc
      simp only [List.mem_singleton] at hc
      subst hc
      exact isDigitCh_digitChar h
    · rw [if_neg h] at hc
      rcases List.mem_append.mp hc with h' | h'
      · exact ih (n / 10) (by omega) c h'
      · simp only [List.mem_singleton] at h'
        subst h'
        exact isDigitCh_digitChar (Nat.mod_lt _ (by omega))

theorem natDigits_all_digit (n : Nat) : ∀ c ∈ natDigits n, isDigitCh c = true :=
  natDigitsAux_all_digit n n (by omega)

theorem digitsVal_append_one (xs : List Char) (c : Char) :
    digitsVal (xs ++ [c]) = 10 * digitsVal xs + (c.toNat - 48) := by
  unfold digitsVal
  rw [List.foldl_append]
  rfl

theorem digitsVal_natDigitsAux :
    ∀ (fuel n : Nat), n ≤ fuel + 9 → digitsVal (natDigitsAux fuel n) = n := by
  intro fuel
  induction fuel with
  | zero =>
    intro n hn
    show digitsVal [digitChar n] = n
    unfold digitsVal
    simp only [List.foldl_cons, List.foldl_nil]
    rw [digitChar_toNat (by omega)]
    omega
  | succ f ih =>
    intro n hn
    unfold natDigitsAux
    by_cases h : n < 10
    · rw [if_pos h]
      show digitsVal [digitChar n] = n
      unfold digitsVal
      simp only [List.foldl_cons, List.foldl_nil]
      rw [digitChar_toNat h]
      omega
    · rw [if_neg h, digitsVal_append_one, ih (n / 10) (by omega),
        digitChar_toNat (Nat.mod_lt _ (by omega))]
      omega

theorem digitsVal_natDigits (n : Nat) : digitsVal (natDigits n) = n :=
  digitsVal_natDigitsAux n n (by omega)

theorem isPrefixL_append_self (a b : List Char) : isPrefixL a (a ++ b) = true := by
  induction a with
  | nil => rfl
  | cons c cs ih => simp [isPrefixL, ih]

theorem map_lcChar_of_digits (ds : List Char) (h : ∀ c ∈ ds, isDigitCh c = true) :
    ds.map lcChar = ds := by
  induction ds with
  | nil => rfl
  | cons c cs ih =>
    simp only [List.map_cons, List.cons.injEq]
    exact ⟨lcChar_digit (h c (by simp)), ih (fun d hd => h d (by simp [hd]))⟩

theorem takeWhile_digits_paren (ds : List Char) (h : ∀ c ∈ ds, isDigitCh c = true) :
    (ds ++ [')']).takeWhile isDigitCh = ds := by
  induction ds with
  | nil => rfl
  | cons c cs ih =>
    rw [List.cons_append, List.takeWhile_cons, if_pos (h c (by simp)),
      ih (fun d hd => h d (by simp [hd]))]

theorem baseNumMatch_roundtrip (base : String) (j : Nat) :
    baseNumMatch base (base ++ " (" ++ jsNatStr j ++ ")") = some j := by
  have hdata : (jsToLower (base ++ " (" ++ jsNatStr j ++ ")")).data =
      (jsToLower base).data ++ (' ' :: '(' :: (natDigits j ++ [')'])) := by
    show ((base ++ " (" ++ jsNatStr j ++ ")").data.map lcChar) = _
    have hd : (base ++ " (" ++ jsNatStr j ++ ")").data =
        base.data ++ (' ' :: '(' :: (natDigits j ++ [')'])) := by
      show (base.data ++ (" (").data ++ (jsNatStr j).data ++ (")").data) = _
      simp [jsNatStr]
    rw [hd, List.map_append]
    show _ = (base.data.map lcChar) ++ _
    congr 1
    simp only [List.map_cons, List.map_append]
    rw [map_lcChar_of_digits _ (natDigits_all_digit j)]
    rfl
  have hne : (natDigits j).isEmpty = false := by
    cases hn : natDigits j with
    | nil => exact absurd hn (natDigits_ne_nil j)
    | cons c cs => rfl
  have hdw : (' ' :: '(' :: (natDigits j ++ [')'])).dropWhile isWsChar =
      '(' :: (natDigits j ++ [')']) := by
    simp [List.dropWhile, isWsChar]
  unfold baseNumMatch
  simp only [hdata, isPrefixL_append_self, if_true, List.drop_left, hdw,
    takeWhile_digits_paren _ (natDigits_all_digit j), hne, Bool.false_eq_true,
    digitsVal_natDigits, if_false]

/-! ## Lemmas on dimension maps and the merge of one instance -/

theorem orElse_some' {α : Type} (a : α) (f : Unit → Option α) :
    (Option.some a).orElse f = some a := rfl

theorem orElse_none' {α : Type} (f : Unit → Option α) :
    (Option.none).orElse f = f () := rfl

theorem dimGet_append (xs ys : List (String × DValue)) (k : String) :
    dimGet (xs ++ ys) k = (dimGet xs k).orElse (fun _ => dimGet ys k) := by
  induction xs with
  | nil => rfl
  | cons x xs ih =>
    obtain ⟨k', v⟩ := x
    by_cases h : k' = k <;> simp [dimGet, h, ih, Option.orElse]

theorem dimGet_override (a b : List (String × DValue)) (k : String) :
    dimGet (a.map (fun kv => match dimGet b kv.1 with
      | some w => (kv.1, w)
      | none => kv)) k =
    match dimGet a k with
    | none => none
    | some v => some ((dimGet b k).getD v) := by
  induction a with
  | nil => rfl
  | cons x xs ih =>
    obtain ⟨k', v⟩ := x
    simp only [List.map_cons]
    by_cases h : k' = k
    · subst h
      cases hb : dimGet b k' <;> simp [dimGet, hb]
    · cases hb : dimGet b k' <;> simp [dimGet, h, hb, ih]

theorem dimGet_filter_keyPred (b : List (String × DValue)) (q : String → Bool)
    (k : String) :
    dimGet (b.filter (fun kv => q kv.1)) k = if q k then dimGet b k else none := by
  induction b with
  | nil => simp [dimGet]
  | cons x xs ih =>
    obtain ⟨k', v⟩ := x
    by_cases hk : k' = k
    · subst hk
      by_cases hq : q k' <;> simp [List.filter_cons, hq, dimGet, ih]
    · by_cases hq : q k' <;> simp [List.filter_cons, hq, dimGet, hk, ih]

theorem dimGet_jsMergeObj (a b : List (String × DValue)) (k : String) :
    dimGet (jsMergeObj a b) k = (dimGet b k).orElse (fun _ => dimGet a k) := by
  unfold jsMergeObj
  rw [dimGet_append, dimGet_override,
    dimGet_filter_keyPred b (fun k' => !(dimHasKey a k')) k]
  cases ha : dimGet a k <;> cases hb : dimGet b k <;>
    simp [dimHasKey, ha, hb, Option.orElse]

theorem layerNameStr_jsMergeObj (a b : List (String × DValue)) :
    layerNameStr (jsMergeObj a b) =
      if (dimGet b "layerName").isSome then layerNameStr b else layerNameStr a := by
  unfold layerNameStr
  rw [dimGet_jsMergeObj]
  cases hb : dimGet b "layerName" <;> simp [Option.orElse]

theorem dimGet_isSome_of_mem {b : List (String × DValue)} {kv : String × DValue}
    (h : kv ∈ b) : (dimGet b kv.1).isSome = true := by
  induction b with
  | nil => cases h
  | cons x xs ih =>
    obtain ⟨k', v⟩ := x
    rcases List.mem_cons.mp h with h' | h'
    · subst h'
      simp [dimGet]
    · by_cases hk : k' = kv.1 <;> simp [dimGet, hk, ih h']

theorem dimGet_eq_of_mem_nodup {b : List (String × DValue)} {kv : String × DValue}
    (h : kv ∈ b) (hnd : (b.map Prod.fst).Nodup) : dimGet b kv.1 = some kv.2 := by
  induction b with
  | nil => cases h
  | cons x xs ih =>
    obtain ⟨k', v⟩ := x
    simp only [List.map_cons, List.nodup_cons] at hnd
    rcases List.mem_cons.mp h with h' | h'
    · subst h'
      simp [dimGet]
    · have hk : k' ≠ kv.1 := by
        intro he
        exact hnd.1 (he ▸ (List.mem_map.mpr ⟨kv, h', rfl⟩))
      simp [dimGet, hk, ih h' hnd.2]

theorem jsMergeObj_idem (a b : List (String × DValue))
    (hnd : (b.map Prod.fst).Nodup) :
    jsMergeObj (jsMergeObj a b) b = jsMergeObj a b := by
  have hfilter : b.filter (fun kv => !(dimHasKey (jsMergeObj a b) kv.1)) = [] := by
    rw [List.filter_eq_nil_iff]
    intro kv hkv
    have : (dimGet (jsMergeObj a b) kv.1).isSome = true := by
      rw [dimGet_jsMergeObj]
      cases hb : dimGet b kv.1 with
      | none =>
        have := dimGet_isSome_of_mem hkv
        rw [hb] at this
        cases this
      | some w => rfl
    simp [dimHasKey, this]
  have hmap : (jsMergeObj a b).map (fun kv => match dimGet b kv.1 with
      | some w => (kv.1, w)
      | none => kv) = jsMergeObj a b := by
    have hpt : ∀ kv ∈ jsMergeObj a b, (match dimGet b kv.1 with
        | some w => (kv.1, w)
        | none => kv) = kv := by
      intro kv hkv
      rcases List.mem_append.mp hkv with hm | hf
      · obtain ⟨x, hx, hfx⟩ := List.mem_map.mp hm
        cases hb : dimGet b x.1 with
        | none =>
          rw [hb] at hfx
          subst hfx
          rw [hb]
        | some w =>
          rw [hb] at hfx
          subst hfx
          simp only []
          rw [hb]
      · have hkvb : kv ∈ b := List.mem_of_mem_filter hf
        rw [dimGet_eq_of_mem_nodup hkvb hnd]
    calc (jsMergeObj a b).map _ = (jsMergeObj a b).map id :=
          List.map_congr_left hpt
      _ = jsMergeObj a b := List.map_id _
  conv_lhs => rw [jsMergeObj]
  rw [hfilter, hmap, List.append_nil]

theorem mergeInto_idem (l u : LayerObj) (hnd : (u.dimensions.map Prod.fst).Nodup) :
    mergeInto (mergeInto l u) u = mergeInto l u := by
  unfold mergeInto
  simp only [LayerObj.mk.injEq]
  refine ⟨?_, ?_, ?_, jsMergeObj_idem _ _ hnd⟩ <;>
    first
      | (cases u.id <;> rfl)
      | (cases u.position <;> rfl)
      | (cases u.isVisible <;> rfl)

theorem entryMatches_mergeInto {l u : LayerObj} (h : entryMatches l u = true) :
    entryMatches (mergeInto l u) u = true := by
  unfold entryMatches at h ⊢
  rw [Bool.or_eq_true] at h
  rcases h with hid | hname
  · cases hl : l.id with
    | none => rw [hl] at hid; cases hid
    | some a =>
      cases hu : u.id with
      | none => rw [hl, hu] at hid; cases hid
      | some b =>
        rw [hl, hu] at hid
        simp only [Bool.and_eq_true, decide_eq_true_eq] at hid
        have hmid : (mergeInto l u).id = some b := by
          unfold mergeInto
          simp [hu]
        rw [Bool.or_eq_true]
        left
        rw [hmid]
        simp only [Bool.and_eq_true, decide_eq_true_eq]
        obtain ⟨h1, h2⟩ := hid
        subst h2
        simp [h1]
  · rw [Bool.or_eq_true]
    right
    show decide (normalizeName (layerNameStr (mergeInto l u).dimensions) =
      normalizeName (layerNameStr u.dimensions)) = true
    have hdims : (mergeInto l u).dimensions = jsMergeObj l.dimensions u.dimensions := rfl
    rw [hdims, layerNameStr_jsMergeObj]
    by_cases hb : (dimGet u.dimensions "layerName").isSome
    · simp [hb]
    · simp only [hb, if_neg, Bool.false_eq_true, if_false]
      exact hname

theorem updateFirstMatch_length {u : LayerObj} :
    ∀ {seq seq' : List LayerObj}, updateFirstMatch u seq = some seq' →
      seq'.length = seq.length := by
  intro seq
  induction seq with
  | nil => intro seq' h; cases h
  | cons l ls ih =>
    intro seq' h
    unfold updateFirstMatch at h
    by_cases hm : entryMatches l u = true
    · rw [if_pos hm] at h
      cases h
      rfl
    · rw [if_neg hm] at h
      cases hrec : updateFirstMatch u ls with
      | none => rw [hrec] at h; cases h
      | some ls' =>
        rw [hrec] at h
        cases h
        simp [ih hrec]

theorem updateFirstMatch_idem {u : LayerObj}
    (hnd : (u.dimensions.map Prod.fst).Nodup) :
    ∀ {seq seq' : List LayerObj}, updateFirstMatch u seq = some seq' →
      updateFirstMatch u seq' = some seq' := by
  intro seq
  induction seq with
  | nil => intro seq' h; cases h
  | cons l ls ih =>
    intro seq' h
    unfold updateFirstMatch at h
    by_cases hm : entryMatches l u = true
    · rw [if_pos hm] at h
      cases h
      unfold updateFirstMatch
      rw [if_pos (entryMatches_mergeInto hm), mergeInto_idem _ _ hnd]
    · rw [if_neg hm] at h
      cases hrec : updateFirstMatch u ls with
      | none => rw [hrec] at h; cases h
      | some ls' =>
        rw [hrec] at h
        cases h
        unfold updateFirstMatch
        rw [if_neg hm, ih hrec]
        rfl

/-! ## Document-level lemmas and claim C1 -/

theorem SceneDoc.ext_get {d d' : SceneDoc} (h : ∀ t, d.get t = d'.get t) : d = d' := by
  cases d
  cases d'
  simp only [SceneDoc.mk.injEq]
  exact ⟨h .FATO, h .TLOF, h .TAXIWAY, h .SHAPE, h .MODEL, h .VOLUME,
    h .FLIGHTPATH, h .FLIGHTPATH_VFR⟩

theorem mergeUpdates_get_single_same (d : SceneDoc) (t : LayerType) (u : LayerObj)
    (msg : String) (intent : Intent) (now : Nat) :
    (mergeUpdates d (singleProposal t u) msg intent now).get t =
      mergeEntry t now intent (d.get t) u := by
  cases t <;> simp [mergeUpdates, singleProposal, SceneDoc.get, mergeLayerSeq]

theorem mergeUpdates_get_single_other (d : SceneDoc) (t t' : LayerType) (u : LayerObj)
    (msg : String) (intent : Intent) (now : Nat) (h : t' ≠ t) :
    (mergeUpdates d (singleProposal t u) msg intent now).get t' = d.get t' := by
  cases t <;> cases t' <;>
    first
      | exact absurd rfl h
      | simp [mergeUpdates, singleProposal, SceneDoc.get]

/-- Claim C1: for every document whose sequence for some layer type
already contains an instance matching a proposal entry (the source's
match: equal non-empty ids, or equal normalized layer names), merging the
singleton proposal `{t: [entry]}` under UPDATE intent twice yields
exactly the document obtained by merging it once — the matching instance
is updated in place, no duplicate is created, and the sequence length is
unchanged.  The entry's dimensions form a key-unique map (JavaScript
objects cannot carry duplicate keys). -/
theorem c1_update_merge_idempotent (doc : SceneDoc) (t : LayerType) (u : LayerObj)
    (msg msg' : String) (now now' : Nat)
    (hnd : (u.dimensions.map Prod.fst).Nodup)
    (hmatch : (updateFirstMatch u (doc.get t)).isSome = true) :
    mergeUpdates (mergeUpdates doc (singleProposal t u) msg .update now)
        (singleProposal t u) msg' .update now' =
      mergeUpdates doc (singleProposal t u) msg .update now ∧
    ((mergeUpdates doc (singleProposal t u) msg .update now).get t).length =
      (doc.get t).length := by
  obtain ⟨s', hs'⟩ := Option.isSome_iff_exists.mp hmatch
  have hEntry : mergeEntry t now .update (doc.get t) u = s' := by
    unfold mergeEntry
    rw [if_pos rfl, hs']
  have hEntry2 : mergeEntry t now' .update s' u = s' := by
    unfold mergeEntry
    rw [if_pos rfl, updateFirstMatch_idem hnd hs']
  constructor
  · apply SceneDoc.ext_get
    intro t'
    by_cases ht : t' = t
    · subst ht
      rw [mergeUpdates_get_single_same, mergeUpdates_get_single_same, hEntry, hEntry2]
    · rw [mergeUpdates_get_single_other _ _ _ _ _ _ _ ht,
        mergeUpdates_get_single_other _ _ _ _ _ _ _ ht]
  · rw [mergeUpdates_get_single_same, hEntry]
    exact updateFirstMatch_length hs'

/-- Witness for C1 at Scenario 2's data: a document holding one TLOF
instance `TLOF-1` and the proposal that sets its rotation to 90. -/
theorem c1_update_merge_idempotent_witness :
    (let doc : SceneDoc :=
      { TLOF := [{ id := some "TLOF-1",
                   dimensions := [("layerName", .str "LANDING SURFACE (1)"),
                                  ("rotation", .num 0)] }] }
     let u : LayerObj := { id := some "TLOF-1", dimensions := [("rotation", .num 90)] }
     mergeUpdates (mergeUpdates doc (singleProposal .TLOF u) "m" .update 1)
        (singleProposal .TLOF u) "m" .update 2 =
      mergeUpdates doc (singleProposal .TLOF u) "m" .update 1 ∧
     ((mergeUpdates doc (singleProposal .TLOF u) "m" .update 1).get .TLOF).length =
      (doc.get .TLOF).length) :=
  c1_update_merge_idempotent _ .TLOF _ "m" "m" 1 2 (by decide) (by decide)

/-! ## Claim C4: the frame of an update hit -/

theorem updateFirstMatch_split {u : LayerObj} :
    ∀ (pre : List LayerObj) (old : LayerObj) (post : List LayerObj),
      (∀ l ∈ pre, entryMatches l u = false) → entryMatches old u = true →
      updateFirstMatch u (pre ++ old :: post) =
        some (pre ++ mergeInto old u :: post) := by
  intro pre
  induction pre with
  | nil =>
    intro old post _ hm
    simp only [List.nil_append]
    unfold updateFirstMatch
    rw [if_pos hm]
  | cons l ls ih =>
    intro old post hpre hm
    simp only [List.cons_append]
    unfold updateFirstMatch
    rw [if_neg (by simp [hpre l (List.mem_cons_self l ls)]),
      ih old post (fun x hx => hpre x (List.mem_cons_of_mem l hx)) hm]
    rfl

/-- Counterexample to claim C4 as stated: when an instance is matched by
normalized layer name but the proposal carries a different id, the
merged instance ADOPTS the proposal's id (`id: updateObj.id ?? existing.id`)
— it is not retained.  Document: one TLOF instance with id "A" and name
"X"; proposal: id "B", name "X"; the in-place updated instance (sequence
length still 1) ends with id "B", not "A". -/
theorem c4_counterexample :
    (let doc : SceneDoc :=
      { TLOF := [{ id := some "A", dimensions := [("layerName", DValue.str "X")] }] }
     let u : LayerObj := { id := some "B", dimensions := [("layerName", DValue.str "X")] }
     let merged := (mergeUpdates doc (singleProposal .TLOF u) "m" .update 0).get .TLOF
     (doc.get .TLOF).map (fun l => l.id) = [some "A"] ∧
     merged.length = 1 ∧
     merged.map (fun l => l.id) = [some "B"] ∧
     merged.map (fun l => l.id) ≠ [some "A"]) := by
  decide

/-- Claim C4 (amended): when intent is UPDATE and a proposal entry
matches an existing instance of its type (first match, by non-empty
equal id or by normalized layer name), the matched instance is replaced
in place: `position` and `isVisible` keep their existing values unless
the proposal supplies them; the dimensions are the shallow key-wise
merge, proposal keys overriding and every other existing key (including
`layerName`) retained; the `id` is taken from the proposal when supplied
and retained otherwise (so it is adopted when previously absent; when
the match is by id the two coincide); and no new instance is added to
the sequence. -/
theorem c4_update_hit_frame (doc : SceneDoc) (t : LayerType) (u old : LayerObj)
    (pre post : List LayerObj) (msg : String) (now : Nat)
    (hsplit : doc.get t = pre ++ old :: post)
    (hpre : ∀ l ∈ pre, entryMatches l u = false)
    (hm : entryMatches old u = true) :
    (mergeUpdates doc (singleProposal t u) msg .update now).get t =
      pre ++ mergeInto old u :: post ∧
    (mergeInto old u).position = u.position.orElse (fun _ => old.position) ∧
    (mergeInto old u).isVisible = u.isVisible.orElse (fun _ => old.isVisible) ∧
    (∀ k, dimGet (mergeInto old u).dimensions k =
      (dimGet u.dimensions k).orElse (fun _ => dimGet old.dimensions k)) ∧
    (mergeInto old u).id = u.id.orElse (fun _ => old.id) ∧
    ((mergeUpdates doc (singleProposal t u) msg .update now).get t).length =
      (doc.get t).length := by
  have hfind : updateFirstMatch u (doc.get t) = some (pre ++ mergeInto old u :: post) := by
    rw [hsplit]
    exact updateFirstMatch_split pre old post hpre hm
  have hget : (mergeUpdates doc (singleProposal t u) msg .update now).get t =
      pre ++ mergeInto old u :: post := by
    rw [mergeUpdates_get_single_same]
    unfold mergeEntry
    rw [if_pos rfl, hfind]
  refine ⟨hget, rfl, rfl, ?_, rfl, ?_⟩
  · intro k
    exact dimGet_jsMergeObj old.dimensions u.dimensions k
  · rw [hget, hsplit]
    simp

/-- Witness for C4 (amended) at Scenario 2: rotating TLOF-1 to 90 keeps
the layer name, keeps the sequence at length 1, and the updated instance
carries rotation 90. -/
theorem c4_update_hit_frame_witness :
    (let doc : SceneDoc :=
      { TLOF := [{ id := some "TLOF-1",
                   dimensions := [("layerName", .str "LANDING SURFACE (1)"),
                                  ("rotation", .num 0)] }] }
     let u : LayerObj := { id := some "TLOF-1", dimensions := [("rotation", .num 90)] }
     (mergeUpdates doc (singleProposal .TLOF u) "m" .update 0).get .TLOF =
       [{ id := some "TLOF-1",
          dimensions := [("layerName", .str "LANDING SURFACE (1)"),
                         ("rotation", .num 90)] }] ∧
     ((mergeUpdates doc (singleProposal .TLOF u) "m" .update 0).get .TLOF).length =
       (doc.get .TLOF).length) := by
  have h := c4_update_hit_frame
    { TLOF := [{ id := some "TLOF-1",
                 dimensions := [("layerName", .str "LANDING SURFACE (1)"),
                                ("rotation", .num 0)] }] }
    .TLOF
    { id := some "TLOF-1", dimensions := [("rotation", .num 90)] }
    { id := some "TLOF-1",
      dimensions := [("layerName", .str "LANDING SURFACE (1)"), ("rotation", .num 0)] }
    [] [] "m" 0 (by decide) (by intro l hl; cases hl) (by decide)
  refine ⟨?_, h.2.2.2.2.2⟩
  rw [h.1]
  decide

/-! ## Claim C2: generated names -/

/-- The display names of instances of a sequence, in order. -/
def namesOf (seq : List LayerObj) : List String :=
  seq.map (fun l => layerNameStr l.dimensions)

/-- `"<base> (<j>)"`. -/
def suffixName (base : String) (j : Nat) : String :=
  base ++ " (" ++ jsNatStr j ++ ")"

/-- `N` successive CREATE-intent merges of singleton proposals for one
layer type. -/
def createMerges (t : LayerType) (msg : String) (now : Nat) (doc : SceneDoc)
    (props : List LayerObj) : SceneDoc :=
  props.foldl (fun d u => mergeUpdates d (singleProposal t u) msg .create now) doc

theorem foldl_max_init (f : LayerObj → Nat) (a : Nat) (xs : List LayerObj) :
    xs.foldl (fun m l => max m (f l)) a = max a (xs.foldl (fun m l => max m (f l)) 0) := by
  induction xs generalizing a with
  | nil => simp
  | cons x xs ih =>
    simp only [List.foldl_cons]
    rw [ih (max a (f x)), ih (max 0 (f x))]
    omega

/-- The number a name contributes to the `maxId` scan (zero when it does
not match). -/
def suffixVal (base : String) (l : LayerObj) : Nat :=
  (baseNumMatch base (layerNameStr l.dimensions)).getD 0

theorem maxSuffix_def2 (base : String) (seq : List LayerObj) :
    maxSuffix base seq = seq.foldl (fun m l => max m (suffixVal base l)) 0 := by
  unfold maxSuffix suffixVal
  congr 1
  funext m l
  cases baseNumMatch base (layerNameStr l.dimensions) <;> simp

theorem maxSuffix_append (base : String) (xs ys : List LayerObj) :
    maxSuffix base (xs ++ ys) = max (maxSuffix base xs) (maxSuffix base ys) := by
  simp only [maxSuffix_def2, List.foldl_append]
  exact foldl_max_init _ _ _

theorem maxSuffix_cons (base : String) (l : LayerObj) (seq : List LayerObj) :
    maxSuffix base (l :: seq) = max (suffixVal base l) (maxSuffix base seq) := by
  rw [maxSuffix_def2, List.foldl_cons, foldl_max_init, ← maxSuffix_def2]
  omega

theorem le_maxSuffix_of_match {base : String} {seq : List LayerObj} {l : LayerObj}
    {n : Nat} (hl : l ∈ seq)
    (hm : baseNumMatch base (layerNameStr l.dimensions) = some n) :
    n ≤ maxSuffix base seq := by
  obtain ⟨s1, s2, rfl⟩ := List.append_of_mem hl
  rw [maxSuffix_append, maxSuffix_cons]
  have : suffixVal base l = n := by
    unfold suffixVal
    rw [hm]
    rfl
  omega

/-- The freshness core of claim C2: the generated next name never equals
a name already present in the sequence. -/
theorem getNextLayerName_fresh (t : LayerType) (seq : List LayerObj) :
    ∀ l ∈ seq, layerNameStr l.dimensions ≠ getNextLayerName t seq := by
  intro l hl heq
  have hmm : baseNumMatch (baseNameOf t seq) (layerNameStr l.dimensions) =
      some (maxSuffix (baseNameOf t seq) seq + 1) := by
    rw [heq]
    exact baseNumMatch_roundtrip _ _
  have := le_maxSuffix_of_match hl hmm
  omega

theorem layerNameStr_newLayer (t : LayerType) (now : Nat) (u : LayerObj)
    (seq : List LayerObj) :
    layerNameStr (newLayer t now u seq).dimensions = getNextLayerName t seq := by
  show layerNameStr
    (jsMergeObj u.dimensions [("layerName", .str (getNextLayerName t seq))]) = _
  rw [layerNameStr_jsMergeObj]
  simp [layerNameStr, dimGet]

theorem strip_display_one (t : LayerType) :
    stripParenSuffix (displayName t ++ " (" ++ jsNatStr 1 ++ ")") = displayName t := by
  cases t <;> decide

theorem getNextLayerName_eq (t : LayerType) (seq : List LayerObj) :
    getNextLayerName t seq =
      suffixName (baseNameOf t seq) (maxSuffix (baseNameOf t seq) seq + 1) := rfl

theorem createMerges_get (t : LayerType) (msg : String) (now : Nat) :
    ∀ (props : List LayerObj) (doc : SceneDoc),
      (createMerges t msg now doc props).get t =
        props.foldl (fun s u => s ++ [newLayer t now u s]) (doc.get t) := by
  intro props
  induction props with
  | nil => intro doc; rfl
  | cons u us ih =>
    intro doc
    show (createMerges t msg now
      (mergeUpdates doc (singleProposal t u) msg .create now) us).get t = _
    rw [ih]
    simp only [List.foldl_cons]
    congr 1
    rw [mergeUpdates_get_single_same]
    unfold mergeEntry
    rw [if_neg (by decide)]

theorem create_fold_names (t : LayerType) (now : Nat) :
    ∀ (props seq : List LayerObj),
      namesOf (props.foldl (fun s u => s ++ [newLayer t now u s]) seq) =
        namesOf seq ++ (List.range props.length).map
          (fun i => suffixName (baseNameOf t seq)
            (maxSuffix (baseNameOf t seq) seq + i + 1)) := by
  intro props
  induction props with
  | nil => intro seq; simp [namesOf]
  | cons u us ih =>
    intro seq
    simp only [List.foldl_cons]
    rw [ih (seq ++ [newLayer t now u seq])]
    have hn : layerNameStr (newLayer t now u seq).dimensions =
        suffixName (baseNameOf t seq) (maxSuffix (baseNameOf t seq) seq + 1) := by
      rw [layerNameStr_newLayer, getNextLayerName_eq]
    have hbase : baseNameOf t (seq ++ [newLayer t now u seq]) = baseNameOf t seq := by
      cases seq with
      | nil =>
        rw [List.nil_append]
        show stripParenSuffix (layerNameStr (newLayer t now u []).dimensions) = _
        rw [layerNameStr_newLayer]
        exact strip_display_one t
      | cons x xs => rfl
    have hmax : maxSuffix (baseNameOf t seq) (seq ++ [newLayer t now u seq]) =
        maxSuffix (baseNameOf t seq) seq + 1 := by
      rw [maxSuffix_append, maxSuffix_cons]
      have : suffixVal (baseNameOf t seq) (newLayer t now u seq) =
          maxSuffix (baseNameOf t seq) seq + 1 := by
        unfold suffixVal
        rw [hn]
        unfold suffixName
        rw [baseNumMatch_roundtrip]
        rfl
      rw [this]
      have : maxSuffix (baseNameOf t seq) ([] : List LayerObj) = 0 := rfl
      rw [this]
      omega
    rw [hbase, hmax]
    have hnames : namesOf (seq ++ [newLayer t now u seq]) =
        namesOf seq ++ [suffixName (baseNameOf t seq)
          (maxSuffix (baseNameOf t seq) seq + 1)] := by
      unfold namesOf
      rw [List.map_append]
      simp only [List.map_cons, List.map_nil]
      rw [hn]
    rw [hnames, List.append_assoc]
    congr 1
    rw [List.length_cons, List.range_succ_eq_map]
    simp only [List.map_cons, List.map_map, List.singleton_append]
    congr 1
    apply List.map_congr_left
    intro i _
    simp only [Function.comp_apply]
    congr 2
    omega

theorem suffixName_inj (base : String) {j j' : Nat}
    (h : suffixName base j = suffixName base j') : j = j' := by
  have h1 := baseNumMatch_roundtrip base j
  have h2 := baseNumMatch_roundtrip base j'
  have e1 : baseNumMatch base (suffixName base j) = some j := h1
  have e2 : baseNumMatch base (suffixName base j') = some j' := h2
  rw [h] at e1
  rw [e2] at e1
  exact (Option.some.inj e1).symm

/-- Claim C2: starting from any document, a sequence of N CREATE-intent
merges for one layer type (proposals carrying no explicit `layerName`)
appends N instances whose `layerName`s are the common base name (the
first instance's name with its "(N)" suffix stripped, or the catalog
display name when the sequence starts empty — in which case the highest
existing suffix is zero and the first created TLOF is
"LANDING SURFACE (1)") with strictly increasing parenthesized suffixes
`maxId+1, …, maxId+N`; these N names are pairwise distinct; and, in
general, `getNextLayerName` never returns a name already present in the
sequence.  The `litSafeBase` hypotheses restrict to base names on which
the literal reading of the source's interpolated `RegExp` is exact. -/
theorem c2_create_naming (doc : SceneDoc) (t : LayerType) (msg : String) (now : Nat)
    (props : List LayerObj)
    (_hsafe : litSafeBase (baseNameOf t (doc.get t)))
    (_hnoname : ∀ u ∈ props, dimHasKey u.dimensions "layerName" = false) :
    namesOf ((createMerges t msg now doc props).get t) =
      namesOf (doc.get t) ++ (List.range props.length).map
        (fun i => suffixName (baseNameOf t (doc.get t))
          (maxSuffix (baseNameOf t (doc.get t)) (doc.get t) + i + 1)) ∧
    ((List.range props.length).map
        (fun i => suffixName (baseNameOf t (doc.get t))
          (maxSuffix (baseNameOf t (doc.get t)) (doc.get t) + i + 1))).Nodup ∧
    ((createMerges t msg now doc props).get t).length =
      (doc.get t).length + props.length ∧
    (doc.get t = [] → baseNameOf t (doc.get t) = displayName t ∧
      maxSuffix (baseNameOf t (doc.get t)) (doc.get t) = 0) ∧
    (∀ seq : List LayerObj, litSafeBase (baseNameOf t seq) →
      ∀ l ∈ seq, layerNameStr l.dimensions ≠ getNextLayerName t seq) := by
  have hmain : namesOf ((createMerges t msg now doc props).get t) =
      namesOf (doc.get t) ++ (List.range props.length).map
        (fun i => suffixName (baseNameOf t (doc.get t))
          (maxSuffix (baseNameOf t (doc.get t)) (doc.get t) + i + 1)) := by
    rw [createMerges_get]
    exact create_fold_names t now props (doc.get t)
  refine ⟨hmain, ?_, ?_, ?_, ?_⟩
  · refine List.Nodup.map ?_ (List.nodup_range _)
    intro i i' hii
    have := suffixName_inj _ hii
    omega
  · have hlen := congrArg List.length hmain
    simp only [namesOf, List.length_map, List.length_append, List.length_range] at hlen
    exact hlen
  · intro h0
    rw [h0]
    exact ⟨rfl, rfl⟩
  · intro seq _ l hl
    exact getNextLayerName_fresh t seq l hl

/-- Witness for C2: two CREATE merges into the empty document produce
TLOF instances named "LANDING SURFACE (1)" and "LANDING SURFACE (2)". -/
theorem c2_create_naming_witness :
    namesOf ((createMerges .TLOF "create a landing pad" 5
        ({} : SceneDoc) [{}, {}]).get .TLOF) =
      ["LANDING SURFACE (1)", "LANDING SURFACE (2)"] := by
  have h := c2_create_naming {} .TLOF "create a landing pad" 5 [{}, {}]
    (by unfold litSafeBase; decide) (by decide)
  rw [h.1]
  decide

/-! ## Claim C9: layer-type selection under UNKNOWN intent -/

/-- Counterexample to claim C9 as stated: for the utterance
"taxiway please" the detected intent is UNKNOWN (no vocabulary word
occurs) and the keyword mapping selects TAXIWAY, yet the route's
selection yields the empty list — not the keyword mapping. -/
theorem c9_counterexample :
    detectIntent "taxiway please" = .unknown ∧
    mapLayersFromUserMessage "taxiway please" = [.TAXIWAY] ∧
    selectLayers (detectIntent "taxiway please") "taxiway please" = [] ∧
    selectLayers (detectIntent "taxiway please") "taxiway please" ≠
      mapLayersFromUserMessage "taxiway please" := by
  refine ⟨by decide, by decide, by decide, by decide⟩

/-- Claim C9 (amended): when the detected intent is UNKNOWN the route
selects NO layer types (`selectedLayers` keeps its initial empty value,
lines 529–535), unlike CREATE and UPDATE, which both select the keyword
mapping of the utterance. -/
theorem c9_unknown_selects_nothing (msg : String) :
    selectLayers .unknown msg = [] ∧
    selectLayers .create msg = mapLayersFromUserMessage msg ∧
    selectLayers .update msg = mapLayersFromUserMessage msg :=
  ⟨rfl, rfl, rfl⟩

/-! ## Claims C5 and C6: the reference resolver -/

/-- A sample document for the resolver scenarios: one TLOF instance
`TLOF-1` named "LANDING SURFACE (1)". -/
def sampleDoc : SceneDoc :=
  { TLOF := [{ id := some "TLOF-1",
               dimensions := [("layerName", .str "LANDING SURFACE (1)"),
                              ("rotation", .num 0)] }] }

/-- Counterexample to claim C5 as stated: under CREATE intent the
resolver does NOT always return empty candidate subsets — the source
records the matched subset "for both update + create".  With the
utterance "create LANDING SURFACE 1" the existing instance is matched
and returned. -/
theorem c5_counterexample :
    matchedFor sampleDoc .TLOF "create LANDING SURFACE 1" ≠ [] ∧
    getRelevantLayers sampleDoc [.TLOF] "create LANDING SURFACE 1" .create =
      .ok [(.TLOF, [{ id := some "TLOF-1",
                      dimensions := [("layerName", .str "LANDING SURFACE (1)"),
                                     ("rotation", .num 0)] }])] := by
  exact ⟨by decide, rfl⟩

/-- Claim C5 (amended): under CREATE intent the resolver never returns
an error (the update-miss fallback requires UPDATE intent) and returns,
for each candidate type, the matched subset — the instances matched by a
numbered display-name mention or by their id occurring in the utterance;
this subset is empty whenever the utterance mentions no number for the
type's display name and no existing instance's id. -/
theorem c5_create_resolver (doc : SceneDoc) (sel : List LayerType) (msg : String) :
    getRelevantLayers doc sel msg .create =
      .ok (sel.map (fun t => (t, matchedFor doc t msg))) ∧
    ∀ t ∈ sel,
      collectNums (displayName t).data (jsToUpper msg).data = [] →
      (∀ l ∈ doc.get t, (match l.id with
        | some s => s ≠ "" && isInfixL (jsToUpper s).data (jsToUpper msg).data
        | none => false) = false) →
      matchedFor doc t msg = [] := by
  constructor
  · have hcond : ∀ t, missErrCond doc t msg .create = false := by
      intro t
      unfold missErrCond
      rfl
    unfold getRelevantLayers
    have hfil : sel.filter (fun t => missErrCond doc t msg .create) = [] := by
      rw [List.filter_eq_nil_iff]
      intro t _
      simp [hcond t]
    rw [hfil]
    rfl
  · intro t _ hnums hid
    unfold matchedFor
    rw [List.filter_eq_nil_iff]
    intro l hl
    unfold resolverMatches
    rw [show collectNums (displayName t).data (jsToUpper msg).data = [] from hnums]
    simp only [List.any_nil, Bool.false_or]
    rw [hid l hl]
    simp

/-- Witness for C5 (amended): with utterance "create a pad" (no number,
no id mention) the resolver returns the empty subset for TLOF under
CREATE intent. -/
theorem c5_create_resolver_witness :
    getRelevantLayers sampleDoc [.TLOF] "create a pad" .create = .ok [(.TLOF, [])] ∧
    matchedFor sampleDoc .TLOF "create a pad" = [] := by
  have h := c5_create_resolver sampleDoc [.TLOF] "create a pad"
  have hm : matchedFor sampleDoc .TLOF "create a pad" = [] :=
    h.2 .TLOF (by decide) (by decide) (by decide)
  constructor
  · rw [h.1]
    rw [List.map_singleton, hm]
  · exact hm

/-- Claim C6: if intent is UPDATE and, for a selected layer type, the
utterance mentions a numbered instance of the type's display name or
mentions "ID", but no existing instance of that type matches, the route
terminates with the resolver's error — which names the type's display
name and lists the currently available instance names — and no merge is
performed (`postMergePhase` yields only the error, never a document). -/
theorem c6_update_miss_error (doc : SceneDoc) (sel : List LayerType) (msg : String)
    (data : Proposal) (now : Nat) (t : LayerType)
    (hmem : t ∈ sel)
    (href : collectNums (displayName t).data (jsToUpper msg).data ≠ [] ∨
      jsIncludes (jsToUpper msg) "ID" = true)
    (hmiss : matchedFor doc t msg = []) :
    missErrMsg t (doc.get t) ∈
      (sel.filter (fun t' => missErrCond doc t' msg .update)).map
        (fun t' => missErrMsg t' (doc.get t')) ∧
    postMergePhase doc sel msg .update data now =
      .error (String.intercalate " | "
        ((sel.filter (fun t' => missErrCond doc t' msg .update)).map
          (fun t' => missErrMsg t' (doc.get t')))) := by
  have hcond : missErrCond doc t msg .update = true := by
    unfold missErrCond
    rw [hmiss]
    rcases href with h | h
    · have : (collectNums (displayName t).data (jsToUpper msg).data).isEmpty = false := by
        cases hcn : collectNums (displayName t).data (jsToUpper msg).data with
        | nil => exact absurd hcn h
        | cons a as => rfl
      simp [this]
    · simp [h]
  have hmemf : t ∈ sel.filter (fun t' => missErrCond doc t' msg .update) :=
    List.mem_filter.mpr ⟨hmem, hcond⟩
  have hne : ((sel.filter (fun t' => missErrCond doc t' msg .update)).map
      (fun t' => missErrMsg t' (doc.get t'))).isEmpty = false := by
    cases hfl : sel.filter (fun t' => missErrCond doc t' msg .update) with
    | nil => rw [hfl] at hmemf; cases hmemf
    | cons a as => rfl
  refine ⟨List.mem_map.mpr ⟨t, hmemf, rfl⟩, ?_⟩
  simp only [postMergePhase, getRelevantLayers, hne, Bool.false_eq_true, if_false]

/-- Witness for C6 at Scenario 3: utterance "update LANDING SURFACE (5)"
against a document whose only TLOF instance is "LANDING SURFACE (1)":
the route returns exactly the error naming the type and listing the one
available name, and no merged document. -/
theorem c6_update_miss_error_witness :
    postMergePhase sampleDoc [.TLOF] "update LANDING SURFACE (5)" .update
        (fun _ => none) 0 =
      .error "No such LANDING SURFACE found. Available LANDING SURFACEs: LANDING SURFACE (1)" ∧
    missErrMsg .TLOF (sampleDoc.get .TLOF) ∈
      (([.TLOF] : List LayerType).filter
        (fun t' => missErrCond sampleDoc t' "update LANDING SURFACE (5)" .update)).map
        (fun t' => missErrMsg t' (sampleDoc.get t')) := by
  have h := c6_update_miss_error sampleDoc [.TLOF] "update LANDING SURFACE (5)"
    (fun _ => none) 0 .TLOF (by decide) (Or.inl (by decide)) (by decide)
  refine ⟨?_, h.1⟩
  rw [h.2]
  rfl

/-! ## Claim C8: the default layer factory -/

theorem templateDims_no_layerName (t : String) :
    dimGet (templateDims t) "layerName" = none := by
  unfold templateDims
  split_ifs <;> decide

theorem templateDims_nodup (t : String) :
    ((templateDims t).map Prod.fst).Nodup := by
  unfold templateDims
  split_ifs <;> decide

/-- Claim C8: for every utterance and every (resolved) layer type string,
`createDefaultLayer` never fails: it returns exactly one instance, with
position `[0,0]`, `isVisible` true, a dimensions map containing every
key of the type's default template at its default value, and
`layerName = "<TYPE>_<name>"` where `<name>` is `parseAircraftName`'s
alphanumeric sanitization of a "for <name>"/"of <name>" phrase, never
empty — `"001"` when the phrase is absent or sanitizes away. -/
theorem c8_default_layer (msg : String) (t : String) :
    (createDefaultLayer msg t).1 = t ∧
    (createDefaultLayer msg t).2.length = 1 ∧
    ∀ L ∈ (createDefaultLayer msg t).2,
      L.position = some [0, 0] ∧
      L.isVisible = some true ∧
      dimGet L.dimensions "layerName" =
        some (.str (t ++ "_" ++ parseAircraftName msg)) ∧
      (∀ kv ∈ templateDims t, dimGet L.dimensions kv.1 = some kv.2) ∧
      parseAircraftName msg ≠ "" := by
  refine ⟨rfl, rfl, ?_⟩
  intro L hL
  have hLeq : L = { position := some [0, 0]
                    isVisible := some true
                    dimensions := jsMergeObj
                      [("layerName", .str (t ++ "_" ++ parseAircraftName msg))]
                      (templateDims t) } := by
    simpa [createDefaultLayer] using hL
  subst hLeq
  refine ⟨rfl, rfl, ?_, ?_, ?_⟩
  · show dimGet (jsMergeObj _ _) _ = _
    rw [dimGet_jsMergeObj, templateDims_no_layerName]
    rfl
  · intro kv hkv
    show dimGet (jsMergeObj _ _) _ = _
    rw [dimGet_jsMergeObj, dimGet_eq_of_mem_nodup hkv (templateDims_nodup t)]
    rfl
  · unfold parseAircraftName
    cases findNamePhrase msg.data with
    | none => decide
    | some cap =>
      simp only []
      split_ifs with he
      · decide
      · intro hcon
        apply he
        have := congrArg String.data hcon
        simp only [String.data] at this
        rw [List.isEmpty_iff]
        exact this

/-- Witness for C8 at Scenario 5: a forced TAXIWAY with the utterance
"build a taxi route for JobyS4" gets the catalog defaults width 50 and
length 300 and the generated name "TAXIWAY_JobyS4". -/
theorem c8_default_layer_witness :
    (createDefaultLayer "build a taxi route for JobyS4" "TAXIWAY").2.length = 1 ∧
    ∀ L ∈ (createDefaultLayer "build a taxi route for JobyS4" "TAXIWAY").2,
      dimGet L.dimensions "width" = some (.num 50) ∧
      dimGet L.dimensions "length" = some (.num 300) ∧
      dimGet L.dimensions "layerName" = some (.str "TAXIWAY_JobyS4") := by
  have h := c8_default_layer "build a taxi route for JobyS4" "TAXIWAY"
  refine ⟨h.2.1, ?_⟩
  intro L hL
  have h3 := (h.2.2) L hL
  refine ⟨h3.2.2.2.1 ("width", .num 50) (by decide),
    h3.2.2.2.1 ("length", .num 300) (by decide), ?_⟩
  rw [h3.2.2.1]
  decide

/-! ## Claims C3 and C10: the normalizer -/

/-- Key uniqueness of a JSON object's field list (JavaScript objects
cannot carry duplicate keys; every object the normalizer builds starts
from `[]` and is extended only through `jsSet`). -/
def keysNodupJ (kvs : List (String × JValue)) : Prop :=
  (kvs.map Prod.fst).Nodup

theorem jsGet_set_self (m : List (String × JValue)) (k : String) (v : JValue) :
    jsGet (jsSet m k v) k = some v := by
  induction m with
  | nil => simp [jsSet, jsGet]
  | cons x xs ih =>
    obtain ⟨k', v'⟩ := x
    by_cases hk : k' = k <;> simp [jsSet, hk, jsGet, ih]

theorem jsGet_set_other (m : List (String × JValue)) (k k' : String) (v : JValue)
    (h : k' ≠ k) : jsGet (jsSet m k v) k' = jsGet m k' := by
  induction m with
  | nil =>
    simp only [jsSet, jsGet]
    rw [if_neg (fun he => h he.symm)]
  | cons x xs ih =>
    obtain ⟨k'', v'⟩ := x
    by_cases hk : k'' = k
    · subst hk
      simp only [jsSet, if_pos rfl, jsGet]
      rw [if_neg (fun he => h he.symm), if_neg (fun he => h he.symm)]
    · simp only [jsSet, if_neg hk, jsGet]
      by_cases hk2 : k'' = k'
      · rw [if_pos hk2, if_pos hk2]
      · rw [if_neg hk2, if_neg hk2]
        exact ih

theorem mem_keys_jsSet {m : List (String × JValue)} {k k'' : String} {v : JValue}
    (h : k'' ∈ (jsSet m k v).map Prod.fst) :
    k'' ∈ m.map Prod.fst ∨ k'' = k := by
  induction m with
  | nil =>
    simp only [jsSet, List.map_cons, List.map_nil, List.mem_singleton] at h
    right
    exact h
  | cons x xs ih =>
    obtain ⟨k', v'⟩ := x
    by_cases hk : k' = k
    · rw [show jsSet ((k', v') :: xs) k v = (k, v) :: xs by
        simp [jsSet, hk]] at h
      simp only [List.map_cons, List.mem_cons] at h
      rcases h with h | h
      · right; exact h
      · left
        rw [hk]
        simp only [List.map_cons, List.mem_cons]
        right
        exact h
    · rw [show jsSet ((k', v') :: xs) k v = (k', v') :: jsSet xs k v by
        simp [jsSet, hk]] at h
      simp only [List.map_cons, List.mem_cons] at h
      rcases h with h | h
      · left; simp [h]
      · rcases ih h with h' | h'
        · left; simp [h']
        · right; exact h'

theorem jsSet_keys_nodup {m : List (String × JValue)} {k : String} {v : JValue}
    (h : keysNodupJ m) : keysNodupJ (jsSet m k v) := by
  induction m with
  | nil => simp [jsSet, keysNodupJ]
  | cons x xs ih =>
    obtain ⟨k', v'⟩ := x
    unfold keysNodupJ at h ⊢
    simp only [List.map_cons, List.nodup_cons] at h
    by_cases hk : k' = k
    · rw [show jsSet ((k', v') :: xs) k v = (k, v) :: xs by simp [jsSet, hk]]
      simp only [List.map_cons, List.nodup_cons]
      rw [← hk]
      exact h
    · rw [show jsSet ((k', v') :: xs) k v = (k', v') :: jsSet xs k v by
        simp [jsSet, hk]]
      simp only [List.map_cons, List.nodup_cons]
      refine ⟨?_, ih h.2⟩
      intro hcon
      rcases mem_keys_jsSet hcon with h' | h'
      · exact h.1 h'
      · exact hk h'

theorem jsSet_not_mem {m : List (String × JValue)} {k : String} (v : JValue)
    (h : k ∉ m.map Prod.fst) : jsSet m k v = m ++ [(k, v)] := by
  induction m with
  | nil => rfl
  | cons x xs ih =>
    obtain ⟨k', v'⟩ := x
    simp only [List.map_cons, List.mem_cons] at h
    push_neg at h
    have hk : ¬ k' = k := fun he => h.1 he.symm
    rw [show jsSet ((k', v') :: xs) k v = (k', v') :: jsSet xs k v by
      simp [jsSet, hk]]
    rw [ih h.2]
    rfl

theorem jsObjAssign_nodup :
    ∀ (ps acc : List (String × JValue)), keysNodupJ acc → keysNodupJ (jsObjAssign acc ps) := by
  intro ps
  induction ps with
  | nil => intro acc h; exact h
  | cons p ps ih =>
    intro acc h
    exact ih _ (jsSet_keys_nodup h)

theorem jsObjAssign_disjoint :
    ∀ (ps acc : List (String × JValue)),
      (ps.map Prod.fst).Nodup →
      (∀ k ∈ ps.map Prod.fst, k ∉ acc.map Prod.fst) →
      jsObjAssign acc ps = acc ++ ps := by
  intro ps
  induction ps with
  | nil => intro acc _ _; simp [jsObjAssign]
  | cons p ps ih =>
    obtain ⟨k, v⟩ := p
    intro acc hnd hdisj
    simp only [List.map_cons, List.nodup_cons] at hnd
    show jsObjAssign (jsSet acc k v) ps = _
    rw [jsSet_not_mem v (hdisj k (by simp)), ih (acc ++ [(k, v)]) hnd.2 ?_]
    · simp
    · intro k' hk'
      simp only [List.map_append, List.mem_append, List.map_cons, List.map_nil,
        List.mem_singleton]
      push_neg
      refine ⟨hdisj k' (by simp [hk']), ?_⟩
      intro he
      subst he
      exact hnd.1 hk'

theorem jsObjAssign_self {m : List (String × JValue)} (h : keysNodupJ m) :
    jsObjAssign [] m = m := by
  have := jsObjAssign_disjoint m [] h (by simp)
  simpa using this

theorem ensureArr_nodup {m : List (String × JValue)} (name : String)
    (h : keysNodupJ m) : keysNodupJ (ensureArr m name) := by
  unfold ensureArr
  split
  · exact h
  · exact jsSet_keys_nodup h

theorem jsGet_ensureArr_self (m : List (String × JValue)) (name : String) :
    ∃ xs, jsGet (ensureArr m name) name = some (.arr xs) := by
  unfold ensureArr
  split
  · next xs heq => exact ⟨xs, heq⟩
  · exact ⟨[], jsGet_set_self m name (.arr [])⟩

theorem jsGet_ensureArr_preserves_arr {m : List (String × JValue)} {n n' : String}
    {xs : List JValue} (h : jsGet m n' = some (.arr xs)) :
    ∃ ys, jsGet (ensureArr m n) n' = some (.arr ys) := by
  by_cases he : n' = n
  · subst he
    exact jsGet_ensureArr_self m n'
  · unfold ensureArr
    split
    · exact ⟨xs, h⟩
    · rw [jsGet_set_other _ _ _ _ he]
      exact ⟨xs, h⟩

theorem foldl_ensureArr_preserves_arr :
    ∀ (names : List String) (m : List (String × JValue)) (n' : String)
      (xs : List JValue), jsGet m n' = some (.arr xs) →
      ∃ ys, jsGet (names.foldl ensureArr m) n' = some (.arr ys) := by
  intro names
  induction names with
  | nil => intro m n' xs h; exact ⟨xs, h⟩
  | cons n ns ih =>
    intro m n' xs h
    obtain ⟨ys, hys⟩ := jsGet_ensureArr_preserves_arr (n := n) h
    exact ih (ensureArr m n) n' ys hys

theorem foldl_ensureArr_all :
    ∀ (names : List String) (m : List (String × JValue)) (n : String), n ∈ names →
      ∃ xs, jsGet (names.foldl ensureArr m) n = some (.arr xs) := by
  intro names
  induction names with
  | nil => intro m n h; cases h
  | cons n' ns ih =>
    intro m n h
    rcases List.mem_cons.mp h with h | h
    · subst h
      obtain ⟨xs, hxs⟩ := jsGet_ensureArr_self m n
      exact foldl_ensureArr_preserves_arr ns (ensureArr m n) n xs hxs
    · exact ih (ensureArr m n') n h

theorem ensureArr_id {m : List (String × JValue)} {n : String}
    (h : ∃ xs, jsGet m n = some (.arr xs)) : ensureArr m n = m := by
  obtain ⟨xs, hxs⟩ := h
  unfold ensureArr
  rw [hxs]

theorem foldl_ensureArr_id :
    ∀ (names : List String) (m : List (String × JValue)),
      (∀ n ∈ names, ∃ xs, jsGet m n = some (.arr xs)) →
      names.foldl ensureArr m = m := by
  intro names
  induction names with
  | nil => intro m _; rfl
  | cons n ns ih =>
    intro m h
    simp only [List.foldl_cons]
    rw [ensureArr_id (h n (by simp))]
    exact ih m (fun n' hn' => h n' (by simp [hn']))

theorem foldl_ensureArr_nodup :
    ∀ (names : List String) (m : List (String × JValue)),
      keysNodupJ m → keysNodupJ (names.foldl ensureArr m) := by
  intro names
  induction names with
  | nil => intro m h; exact h
  | cons n ns ih => intro m h; exact ih _ (ensureArr_nodup n h)

theorem mergeKey_nodup {acc : List (String × JValue)} {k : String} {v : JValue}
    {r : List (String × JValue)} (h : keysNodupJ acc) (he : mergeKey acc k v = .ok r) :
    keysNodupJ r := by
  unfold mergeKey at he
  simp only [] at he
  split at he
  · split at he
    · cases he
      exact jsSet_keys_nodup h
    · cases he
      exact jsSet_keys_nodup h
    · cases he
  · cases he
    exact jsSet_keys_nodup h
  · cases he
    exact jsSet_keys_nodup h

theorem pairsFold_nodup :
    ∀ (ps : List (String × JValue)) (acc r : List (String × JValue)),
      keysNodupJ acc →
      ps.foldlM (fun a kv => mergeKey a kv.1 kv.2) acc = .ok r → keysNodupJ r := by
  intro ps
  induction ps with
  | nil =>
    intro acc r h he
    cases he
    exact h
  | cons p ps ih =>
    intro acc r h he
    rw [List.foldlM_cons] at he
    cases hk : mergeKey acc p.1 p.2 with
    | error e =>
      rw [hk] at he
      cases he
    | ok a =>
      rw [hk] at he
      exact ih a r (mergeKey_nodup h hk) he

theorem elemsFold_nodup :
    ∀ (xs : List JValue) (acc r : List (String × JValue)),
      keysNodupJ acc → xs.foldlM mergeElem acc = .ok r → keysNodupJ r := by
  intro xs
  induction xs with
  | nil =>
    intro acc r h he
    cases he
    exact h
  | cons x xs ih =>
    intro acc r h he
    rw [List.foldlM_cons] at he
    cases hk : mergeElem acc x with
    | error e =>
      rw [hk] at he
      cases he
    | ok a =>
      rw [hk] at he
      exact ih a r (pairsFold_nodup (forInPairs x) acc a h hk) he

theorem objCopy_nodup (v : JValue) : keysNodupJ (objCopy v) :=
  jsObjAssign_nodup _ [] (by simp [keysNodupJ])

theorem normalizeJson_ok_shape {x y : JValue} (h : normalizeJson x = .ok y) :
    ∃ m, y = .obj m ∧ keysNodupJ m ∧
      ∀ n ∈ possibleLayers, ∃ xs, jsGet m n = some (.arr xs) := by
  unfold normalizeJson at h
  cases hx : normalizeBase x with
  | error e =>
    rw [hx] at h
    cases h
  | ok base =>
    rw [hx] at h
    have hy : y = .obj (possibleLayers.foldl ensureArr base) := by
      cases h
      rfl
    have hnodbase : keysNodupJ base := by
      unfold normalizeBase at hx
      cases x with
      | arr xs => exact elemsFold_nodup xs [] base (by simp [keysNodupJ]) hx
      | null =>
        injection hx with hx'
        exact hx' ▸ objCopy_nodup _
      | bool b =>
        injection hx with hx'
        exact hx' ▸ objCopy_nodup _
      | num i =>
        injection hx with hx'
        exact hx' ▸ objCopy_nodup _
      | str s =>
        injection hx with hx'
        exact hx' ▸ objCopy_nodup _
      | obj kvs =>
        injection hx with hx'
        exact hx' ▸ objCopy_nodup _
    refine ⟨possibleLayers.foldl ensureArr base, hy,
      foldl_ensureArr_nodup _ _ hnodbase, ?_⟩
    intro n hn
    exact foldl_ensureArr_all possibleLayers base n hn

/-- Counterexample to claim C3 as stated: the normalizer's output does
NOT always have exactly the eight enumerated keys — input keys outside
the enumeration are preserved (`{foo: 5}` normalizes to a nine-key
document) — and on an array input whose deep-merge hits a truthy
non-array, non-string accumulated value under an array-valued key the
source throws a `TypeError` instead of returning a document. -/
theorem c3_counterexample :
    normalizeJson (.obj [("foo", .num 5)]) =
      .ok (.obj [("foo", .num 5), ("FATO", .arr []), ("TLOF", .arr []),
        ("TAXIWAY", .arr []), ("SHAPE", .arr []), ("MODEL", .arr []),
        ("VOLUME", .arr []), ("FLIGHTPATH", .arr []), ("FLIGHTPATH_VFR", .arr [])]) ∧
    "foo" ∉ possibleLayers ∧
    normalizeJson (.arr [.obj [("TLOF", .num 5)], .obj [("TLOF", .arr [])]]) =
      .error "TypeError: acc[key].concat is not a function" :=
  ⟨rfl, by decide, rfl⟩

/-- Claim C3 (amended): whenever the normalizer returns (array inputs
are deep-merged left-to-right — array values concatenate, object values
shallow-merge, scalars overwrite — and this merge throws on a truthy
non-array, non-string value meeting an array value), the result is an
object whose keys INCLUDE every one of the eight enumerated
LayerTypeIds, each mapped to a sequence; enumerated keys not already
sequences are set to the empty sequence, and input keys outside the
enumeration are preserved rather than dropped. -/
theorem c3_normalize_shape (x y : JValue) (h : normalizeJson x = .ok y) :
    ∃ kvs, y = .obj kvs ∧
      ∀ name ∈ possibleLayers, ∃ xs, jsGet kvs name = some (.arr xs) := by
  obtain ⟨m, hy, _, harr⟩ := normalizeJson_ok_shape h
  exact ⟨m, hy, harr⟩

/-- Witness for C3 (amended) at the nine-key output of `{foo: 5}`. -/
theorem c3_normalize_shape_witness :
    ∃ kvs, (JValue.obj [("foo", JValue.num 5), ("FATO", .arr []), ("TLOF", .arr []),
      ("TAXIWAY", .arr []), ("SHAPE", .arr []), ("MODEL", .arr []),
      ("VOLUME", .arr []), ("FLIGHTPATH", .arr []), ("FLIGHTPATH_VFR", .arr [])]) =
      .obj kvs ∧
      ∀ name ∈ possibleLayers, ∃ xs, jsGet kvs name = some (.arr xs) :=
  c3_normalize_shape (.obj [("foo", .num 5)]) _ rfl

/-- Claim C10: the normalizer is idempotent — whenever it returns a
document, normalizing that document again returns it unchanged, so the
repeated normalization at the request boundary and inside the merge is
harmless. -/
theorem c10_normalize_idempotent (x y : JValue) (h : normalizeJson x = .ok y) :
    normalizeJson y = .ok y := by
  obtain ⟨m, rfl, hnod, harr⟩ := normalizeJson_ok_shape h
  have hcopy : objCopy (.obj m) = m := jsObjAssign_self hnod
  show Except.ok (JValue.obj (possibleLayers.foldl ensureArr (objCopy (.obj m)))) =
    .ok (.obj m)
  rw [hcopy, foldl_ensureArr_id possibleLayers m harr]

/-- Witness for C10: normalizing the normalizer's own output of `{}`
returns it unchanged. -/
theorem c10_normalize_idempotent_witness :
    normalizeJson (JValue.obj [("FATO", .arr []), ("TLOF", .arr []),
      ("TAXIWAY", .arr []), ("SHAPE", .arr []), ("MODEL", .arr []),
      ("VOLUME", .arr []), ("FLIGHTPATH", .arr []), ("FLIGHTPATH_VFR", .arr [])]) =
      .ok (.obj [("FATO", .arr []), ("TLOF", .arr []),
        ("TAXIWAY", .arr []), ("SHAPE", .arr []), ("MODEL", .arr []),
        ("VOLUME", .arr []), ("FLIGHTPATH", .arr []), ("FLIGHTPATH_VFR", .arr [])]) :=
  c10_normalize_idempotent (.obj []) _ rfl
